import Mathlib

/-!
# MCP-Time: a shallow embedding of `src/timeUtils.js`

The program is a Node.js module.  Its own functions (`getTimezoneByCity`,
`getCityTime`, `getCurrentTime`, `getTimeDifference`, `getRelativeDate`,
`getWeekday`, `parseTimeQuery`) are translated one for one.  The built-ins
they call (`Date`, `Intl` formatting, `String.prototype.replace`, property
lookup on an object literal) are modelled after ECMA-262 / ECMA-402 as
implemented by V8, the engine of Node.js.  Everything the engine takes from
its surroundings (the time-zone database, the zone of the process) is a field
of `Host`; the clock reading `new Date()` is the explicit argument `now`
(milliseconds since the epoch).

A call that raises an exception returns `Except.error`.
-/

namespace McpTime

/-! ## JavaScript values that reach the time-zone argument -/

/-- Exceptions raised by the built-ins used in `timeUtils.js`. -/
inductive JsError where
  | rangeError (msg : String)
  deriving DecidableEq, Repr

/-- Equality of outcomes is decidable when it is for results and errors. -/
instance instDecidableEqOutcome {ε α : Type} [DecidableEq ε] [DecidableEq α] :
    DecidableEq (Except ε α) := fun a b =>
  match a, b with
  | .ok x, .ok y =>
    if h : x = y then isTrue (by rw [h]) else isFalse (fun h' => h (by cases h'; rfl))
  | .error x, .error y =>
    if h : x = y then isTrue (by rw [h]) else isFalse (fun h' => h (by cases h'; rfl))
  | .ok _, .error _ => isFalse (fun h' => by cases h')
  | .error _, .ok _ => isFalse (fun h' => by cases h')

/-- The values a property read on `TIMEZONE_MAP` can produce, and hence the
values the `timezone` parameter of `getCurrentTime` can hold. `inherited k`
is the function (or, for `__proto__`, the object) that the object literal
inherits from `Object.prototype` under the key `k`. -/
inductive JsVal where
  | undefined
  | null
  | str (s : String)
  | inherited (key : String)
  deriving DecidableEq, Repr

/-- ToBoolean: `undefined`, `null` and the empty string are falsy; functions and
objects are truthy. -/
def JsVal.truthy : JsVal → Bool
  | .undefined => false
  | .null => false
  | .str s => s != ""
  | .inherited _ => true

/-! ## The registry (timeUtils.js, lines 8-37) -/

/-- The object literal `TIMEZONE_MAP`, own properties in source order. -/
def TIMEZONE_MAP : List (String × String) :=
  [ ("北京", "Asia/Shanghai"),
    ("上海", "Asia/Shanghai"),
    ("广州", "Asia/Shanghai"),
    ("香港", "Asia/Hong_Kong"),
    ("台北", "Asia/Taipei"),
    ("东京", "Asia/Tokyo"),
    ("首尔", "Asia/Seoul"),
    ("新加坡", "Asia/Singapore"),
    ("悉尼", "Australia/Sydney"),
    ("莫斯科", "Europe/Moscow"),
    ("伦敦", "Europe/London"),
    ("巴黎", "Europe/Paris"),
    ("柏林", "Europe/Berlin"),
    ("罗马", "Europe/Rome"),
    ("纽约", "America/New_York"),
    ("洛杉矶", "America/Los_Angeles"),
    ("芝加哥", "America/Chicago"),
    ("多伦多", "America/Toronto"),
    ("墨西哥城", "America/Mexico_City"),
    ("里约热内卢", "America/Sao_Paulo"),
    ("开罗", "Africa/Cairo"),
    ("约翰内斯堡", "Africa/Johannesburg"),
    ("迪拜", "Asia/Dubai"),
    ("孟买", "Asia/Kolkata"),
    ("曼谷", "Asia/Bangkok") ]

/-- The array `WEEKDAY_CN`, indexed by `getDay()`. -/
def WEEKDAY_CN : List String :=
  ["星期日", "星期一", "星期二", "星期三", "星期四", "星期五", "星期六"]

/-- Property keys of `Object.prototype` in V8. An object literal inherits all of
them; each holds a function, except `__proto__`, an accessor yielding the
prototype object. -/
def OBJECT_PROTOTYPE_KEYS : List String :=
  [ "constructor", "__defineGetter__", "__defineSetter__", "hasOwnProperty",
    "__lookupGetter__", "__lookupSetter__", "isPrototypeOf",
    "propertyIsEnumerable", "toString", "valueOf", "__proto__",
    "toLocaleString" ]

/-- The keys of the registry. -/
def registeredCities : List String := TIMEZONE_MAP.map Prod.fst

/-- Own-property lookup in the literal. -/
def ownTimezone (city : String) : Option String :=
  (TIMEZONE_MAP.find? (fun p => p.1 == city)).map Prod.snd

/-- The property read `TIMEZONE_MAP[city]`: own properties first, then the
prototype chain, `undefined` when neither has the key. -/
def lookupProperty (city : String) : JsVal :=
  match ownTimezone city with
  | some tz => .str tz
  | none => if city ∈ OBJECT_PROTOTYPE_KEYS then .inherited city else .undefined

/-- `getTimezoneByCity` (lines 98-100): `TIMEZONE_MAP[city] || null`. -/
def getTimezoneByCity (city : String) : JsVal :=
  let v := lookupProperty city
  if v.truthy then v else .null

/-! ## Time values and the civil calendar (ECMA-262, 21.4.1) -/

/-- Milliseconds in a day. -/
def msPerDay : Int := 86400000

/-- Day number of a time value. -/
def Day (t : Int) : Int := t / msPerDay

/-- Milliseconds since the start of the day. -/
def TimeWithinDay (t : Int) : Int := t % msPerDay

/-- Number of the first day of year `y`. -/
def DayFromYear (y : Int) : Int :=
  365 * (y - 1970) + (y - 1969) / 4 - (y - 1901) / 100 + (y - 1601) / 400

/-- Length of year `y` in days. -/
def DaysInYear (y : Int) : Int :=
  if y % 4 ≠ 0 then 365
  else if y % 100 ≠ 0 then 366
  else if y % 400 ≠ 0 then 365
  else 366

/-- The year containing day `d`: the largest `y` with `DayFromYear y ≤ d`,
found from an estimate that is off by at most one. -/
def YearFromDay (d : Int) : Int :=
  let y := 1970 + (d * 400) / 146097
  if DayFromYear (y + 1) ≤ d then y + 1
  else if DayFromYear y ≤ d then y
  else y - 1

/-- One for a leap year, zero otherwise. -/
def InLeapYear (y : Int) : Int := if DaysInYear y = 366 then 1 else 0

/-- Day number within the year, from zero. -/
def DayWithinYear (d : Int) : Int := d - DayFromYear (YearFromDay d)

/-- First day-within-year of month `m` (0-based), `leap` being 0 or 1. -/
def monthStart (m : Int) (leap : Int) : Int :=
  if m ≤ 0 then 0
  else if m = 1 then 31
  else if m = 2 then 59 + leap
  else if m = 3 then 90 + leap
  else if m = 4 then 120 + leap
  else if m = 5 then 151 + leap
  else if m = 6 then 181 + leap
  else if m = 7 then 212 + leap
  else if m = 8 then 243 + leap
  else if m = 9 then 273 + leap
  else if m = 10 then 304 + leap
  else 334 + leap

/-- Month (0-based) of a day-within-year. -/
def monthOfDayInYear (dwy : Int) (leap : Int) : Int :=
  if dwy < 31 then 0
  else if dwy < 59 + leap then 1
  else if dwy < 90 + leap then 2
  else if dwy < 120 + leap then 3
  else if dwy < 151 + leap then 4
  else if dwy < 181 + leap then 5
  else if dwy < 212 + leap then 6
  else if dwy < 243 + leap then 7
  else if dwy < 273 + leap then 8
  else if dwy < 304 + leap then 9
  else if dwy < 334 + leap then 10
  else 11

/-- Month (0-based) of day number `d`. -/
def MonthFromDay (d : Int) : Int :=
  monthOfDayInYear (DayWithinYear d) (InLeapYear (YearFromDay d))

/-- Day of the month (from 1) of day number `d`. -/
def DateFromDay (d : Int) : Int :=
  DayWithinYear d - monthStart (MonthFromDay d) (InLeapYear (YearFromDay d)) + 1

/-- Day of the week of day number `d`: 0 is Sunday. -/
def WeekDayOfDay (d : Int) : Int := (d + 4) % 7

/-- MakeDay: the day number of `date` counted from the first of month `month`
(0-based, any integer) of `year`. -/
def MakeDay (year month date : Int) : Int :=
  let ym := year + month / 12
  let mn := month % 12
  DayFromYear ym + monthStart mn (InLeapYear ym) + date - 1

/-- MakeDate. -/
def MakeDate (day time : Int) : Int := day * msPerDay + time

/-- Largest magnitude of a time value. -/
def maxTime : Int := 8640000000000000

/-- TimeClip: `none` is the time value NaN of an invalid Date. -/
def TimeClip (t : Int) : Option Int :=
  if -maxTime ≤ t ∧ t ≤ maxTime then some t else none

/-- A civil date: year, month (1-12), day of the month. -/
structure Civil where
  year : Int
  month : Int
  day : Int
  deriving DecidableEq, Repr

/-- The civil date of day number `d`. -/
def civilOfDay (d : Int) : Civil :=
  { year := YearFromDay d, month := MonthFromDay d + 1, day := DateFromDay d }

/-- Number of days of month `m` (0-based) in a year with leap indicator `leap`. -/
def daysInMonth (m leap : Int) : Int :=
  if m = 1 then 28 + leap
  else if m = 3 ∨ m = 5 ∨ m = 8 ∨ m = 10 then 30
  else 31

/-! ## The host: the engine and what it takes from its surroundings -/

/-- The engine and its surroundings. Offsets are in milliseconds, positive east
of Greenwich. -/
structure Host where
  /-- The time-zone database behind `Intl`: for an identifier it accepts, the
  offset of the zone at a UTC instant; `none` for an identifier it rejects. -/
  zone : String → Option (Int → Int)
  /-- Offset of the zone of the process at a UTC instant. -/
  localOffset : Int → Int
  /-- Offset of the zone of the process at a local time value. -/
  localOffsetOfLocal : Int → Int
  /-- Whether `hour12: false` in `en-US` selects the hour cycle 1-24 (engines
  older than the 2023 edition of ECMA-402) instead of 0-23. -/
  hourCycle24 : Bool
  /-- The result of `Date.parse` on a text that is neither of the two shapes
  modelled below (`digits-digits-digits` and `dd:dd`). -/
  parseOther : List Char → Option Int
  /-- The text of a non-integral Number (the shortest decimal that reads back
  as the same double); floating point is not modelled. -/
  fractionText : ℚ → List Char

/-- LocalTime. -/
def Host.LocalTime (h : Host) (t : Int) : Int := t + h.localOffset t

/-- UTC: from a local time value to a UTC one. -/
def Host.UTC (h : Host) (t : Int) : Int := t - h.localOffsetOfLocal t

/-! ## Rendering -/

/-- Decimal digits of a natural number. -/
def decimal (n : Nat) : List Char := Nat.toDigits 10 n

/-- Decimal digits, zero-padded on the left to `width`. -/
def padded (width n : Nat) : List Char :=
  List.replicate (width - (decimal n).length) '0' ++ decimal n

/-- The year as `Intl` prints it for the Gregorian calendar: the year of the
era (year 0 is year 1 of the era before). -/
def yearOfEra (y : Int) : Nat := if 1 ≤ y then y.toNat else (1 - y).toNat

/-- The text of `toLocaleDateString('zh-CN')`: `y/M/d`. -/
def fmtDateZh (c : Civil) : String :=
  String.mk (decimal (yearOfEra c.year) ++ '/' :: decimal c.month.toNat
    ++ '/' :: decimal c.day.toNat)

/-- The text of `toLocaleDateString('zh-CN', {year: 'numeric', month:
'2-digit', day: '2-digit'})`: `y/MM/dd`. -/
def fmtDateZh2 (c : Civil) : String :=
  String.mk (decimal (yearOfEra c.year) ++ '/' :: padded 2 c.month.toNat
    ++ '/' :: padded 2 c.day.toNat)

/-- Hour, minute and second of a time value. -/
def HourFromTime (t : Int) : Nat := (TimeWithinDay t / 3600000).toNat
/-- Minute of the hour. -/
def MinFromTime (t : Int) : Nat := (TimeWithinDay t / 60000 % 60).toNat
/-- Second of the minute. -/
def SecFromTime (t : Int) : Nat := (TimeWithinDay t / 1000 % 60).toNat
/-- Millisecond of the second. -/
def msFromTime (t : Int) : Nat := (TimeWithinDay t % 1000).toNat

/-- The text of `toLocaleTimeString('zh-CN', {hour12: false, ...})` for a local
time value: `HH:mm:ss`. -/
def fmtTimeZh (t : Int) : String :=
  String.mk (padded 2 (HourFromTime t) ++ ':' :: padded 2 (MinFromTime t)
    ++ ':' :: padded 2 (SecFromTime t))

/-- The text of `toLocaleString('en-US', {hour: 'numeric', minute: 'numeric',
hour12: false})` for a local time value: `HH:mm`, midnight being hour 24 under
the hour cycle 1-24. -/
def fmtClockEn (h : Host) (t : Int) : List Char :=
  let hr := HourFromTime t
  let shown := if h.hourCycle24 && hr == 0 then 24 else hr
  padded 2 shown ++ ':' :: padded 2 (MinFromTime t)

/-- The weekday name of a local time value: `WEEKDAY_CN[getDay()]`, also the
`zh-CN` long weekday of `Intl`. -/
def weekdayName (t : Int) : String :=
  WEEKDAY_CN.getD (WeekDayOfDay (Day t)).toNat ""

/-- The year field of `toISOString`: four digits for 0..9999, otherwise a sign
and six digits. -/
def isoYear (y : Int) : List Char :=
  if 0 ≤ y ∧ y ≤ 9999 then padded 4 y.toNat
  else if y < 0 then '-' :: padded 6 (-y).toNat
  else '+' :: padded 6 y.toNat

/-- The date part of `toISOString` (the text before `T`) of a UTC time value. -/
def isoDate (t : Int) : List Char :=
  let c := civilOfDay (Day t)
  isoYear c.year ++ '-' :: padded 2 c.month.toNat ++ '-' :: padded 2 c.day.toNat

/-- The text of `toISOString()` for a valid time value. -/
def toISOString (t : Int) : String :=
  String.mk (isoDate t ++ 'T' :: padded 2 (HourFromTime t) ++ ':' ::
    padded 2 (MinFromTime t) ++ ':' :: padded 2 (SecFromTime t) ++ '.' ::
    padded 3 (msFromTime t) ++ ['Z'])

/-! ## getCurrentTime and getCityTime (lines 44-117) -/

/-- The object returned by `getCurrentTime`. -/
structure TimeInfo where
  time : String
  date : String
  weekday : String
  timestamp : Int
  iso : String
  deriving DecidableEq, Repr

/-- The object returned by `getCityTime`: the snapshot spread, plus `city` and
`timezone`. -/
structure CityTimeInfo where
  info : TimeInfo
  city : String
  timezone : JsVal
  deriving DecidableEq, Repr

/-- The text of the member of `Object.prototype` under `key`, as the engine
converts it to a string: the prototype object for `__proto__`, the function
`Object` for `constructor`, a built-in function named after the key otherwise. -/
def inheritedText (key : String) : String :=
  if key = "__proto__" then "[object Object]"
  else if key = "constructor" then "function Object() \x7b [native code] \x7d"
  else "function " ++ key ++ "() \x7b [native code] \x7d"

/-- The offset function `Intl.DateTimeFormat` resolves for the option
`timeZone`: the value is converted to a string and looked up; the string form
of a function or of a plain object is no zone identifier, so it is rejected. -/
def resolveZone (h : Host) : JsVal → Except JsError (Int → Int)
  | .str s =>
    match h.zone s with
    | some off => .ok off
    | none => .error (.rangeError ("Invalid time zone specified: " ++ s))
  | .inherited k =>
    .error (.rangeError ("Invalid time zone specified: " ++ inheritedText k))
  | .null => .error (.rangeError "Invalid time zone specified: null")
  | .undefined => .ok h.localOffset

/-- `getCurrentTime` (lines 44-91) at the clock reading `now`. -/
def getCurrentTime (h : Host) (now : Int) (timezone : JsVal) :
    Except JsError TimeInfo :=
  if timezone.truthy then
    match resolveZone h timezone with
    | .error e => .error e
    | .ok off =>
      let t := now + off now
      .ok { time := fmtTimeZh t
            date := fmtDateZh2 (civilOfDay (Day t))
            weekday := weekdayName t
            timestamp := now
            iso := toISOString now }
  else
    let t := h.LocalTime now
    .ok { time := fmtTimeZh t
          date := fmtDateZh (civilOfDay (Day t))
          weekday := weekdayName t
          timestamp := now
          iso := toISOString now }

/-- `getCityTime` (lines 107-117); `none` is the returned `null`. -/
def getCityTime (h : Host) (now : Int) (city : String) :
    Except JsError (Option CityTimeInfo) :=
  let timezone := getTimezoneByCity city
  if !timezone.truthy then .ok none
  else
    match getCurrentTime h now timezone with
    | .error e => .error e
    | .ok timeInfo => .ok (some { info := timeInfo, city := city, timezone := timezone })

/-- A host that knows every zone identifier of the registry. -/
def Host.knowsRegistry (h : Host) : Prop :=
  ∀ p ∈ TIMEZONE_MAP, (h.zone p.2).isSome = true

instance instDecidableKnowsRegistry (h : Host) : Decidable h.knowsRegistry := by
  unfold Host.knowsRegistry; infer_instance

/-! ## Date.parse (V8) on the texts the program builds

`new Date(text)` is modelled on two shapes of text: three runs of digits
joined by hyphens (what `getWeekday` builds from a numeric date), and the
clock text `dd:dd` (what `getTimeDifference` builds). Any other text is left
to `Host.parseOther`. -/

/-- An ASCII digit. -/
def isDigit (c : Char) : Bool := '0' ≤ c && c ≤ '9'

/-- The scanner's number: leading zeros are skipped and at most nine
significant digits are accumulated. -/
def readNumeral (ds : List Char) : Nat :=
  ((ds.dropWhile (· == '0')).take 9).foldl (fun n c => n * 10 + (c.toNat - 48)) 0

/-- Splits `y-m-d` into its three non-empty runs of digits. -/
def splitYMD (s : List Char) : Option (List Char × List Char × List Char) :=
  let y := s.takeWhile isDigit
  match s.dropWhile isDigit with
  | '-' :: r1 =>
    let m := r1.takeWhile isDigit
    match r1.dropWhile isDigit with
    | '-' :: d =>
      if !y.isEmpty && !m.isEmpty && !d.isEmpty && d.all isDigit then some (y, m, d)
      else none
    | _ => none
  | _ => none

/-- The parser's month test. -/
def IsMonth (n : Nat) : Bool := decide (1 ≤ n) && decide (n ≤ 12)

/-- The parser's day test: 1 to 31, whatever the month. -/
def IsDay (n : Nat) : Bool := decide (1 ≤ n) && decide (n ≤ 31)

/-- The parser on `y-m-d`. With a four-digit year, a two-digit month in 1..12
and a two-digit day in 1..31 the text is an ECMAScript date-only form, read as
UTC midnight. Otherwise the legacy rules apply: the three numbers are
year-month-day unless the first is a day number (then month-day-year), a year
below 50 is counted from 2000 and one below 100 from 1900, month and day must
pass the tests above, and the result is local midnight. -/
def parseYMD (h : Host) (y m d : List Char) : Option Int :=
  let yv := readNumeral y
  let mv := readNumeral m
  let dv := readNumeral d
  if y.length = 4 ∧ m.length = 2 ∧ IsMonth mv = true ∧ d.length = 2 ∧ IsDay dv = true then
    TimeClip (MakeDate (MakeDay yv (mv - 1) dv) 0)
  else
    let ymd : Nat × Nat × Nat := if IsDay yv then (dv, yv, mv) else (yv, mv, dv)
    let year : Nat :=
      if ymd.1 ≤ 49 then ymd.1 + 2000 else if ymd.1 ≤ 99 then ymd.1 + 1900 else ymd.1
    if IsMonth ymd.2.1 ∧ IsDay ymd.2.2 then
      TimeClip (h.UTC (MakeDate (MakeDay year ((ymd.2.1 : Int) - 1) ymd.2.2) 0))
    else none

/-- The clock text `dd:dd` with a minute below 60. The parser reads an hour and
a minute and no calendar field, and rejects a text without calendar fields. -/
def isClockText : List Char → Bool
  | [a, b, ':', c, d] => isDigit a && isDigit b && isDigit c && isDigit d && decide (c ≤ '5')
  | _ => false

/-- The time value of `new Date(text)`; `none` is NaN (an invalid Date). -/
def dateParse (h : Host) (s : List Char) : Option Int :=
  match splitYMD s with
  | some (y, m, d) => parseYMD h y m d
  | none => if isClockText s then none else h.parseOther s

/-! ## Numbers

The quotient computed by `getTimeDifference` is kept exact: `none` is NaN,
`some q` the number whose value is the rational `q`. -/

/-- A Number: NaN or a rational value. -/
abbrev JsNum := Option ℚ

/-- Subtraction of two Dates: each operand is converted to its time value. -/
def JsNum.ofDates (a b : Option Int) : JsNum :=
  match a, b with
  | some x, some y => some ((x - y : Int) : ℚ)
  | _, _ => none

/-- Division by a finite non-zero constant. -/
def JsNum.divBy (x : JsNum) (k : ℚ) : JsNum := x.map (· / k)

/-- Multiplication by a finite constant. -/
def JsNum.mulBy (x : JsNum) (k : ℚ) : JsNum := x.map (· * k)

/-- The comparison `x > 0`: false for NaN. -/
def JsNum.gtZero : JsNum → Bool
  | some q => decide (0 < q)
  | none => false

/-- `Math.abs`. -/
def JsNum.abs (x : JsNum) : JsNum := x.map (fun q => |q|)

/-- The comparison `x == y` of two Numbers: NaN equals nothing. -/
def JsNum.looseEq : JsNum → JsNum → Bool
  | some p, some q => decide (p = q)
  | _, _ => false

/-- Unary minus. -/
def JsNum.neg (x : JsNum) : JsNum := x.map (fun q => -q)

/-- Number to text inside a template literal: `NaN`, the decimal digits of an
integral value, or, for a fraction, the text `fraction` gives (the shortest
decimal that reads back as the same double). -/
def JsNum.text (fraction : ℚ → List Char) : JsNum → List Char
  | none => ['N', 'a', 'N']
  | some q =>
    if q.den = 1 then
      (if q.num < 0 then '-' :: decimal q.num.natAbs else decimal q.num.natAbs)
    else fraction q

/-! ## getTimeDifference (lines 125-152) -/

/-- The object returned by `getTimeDifference`. -/
structure TimeDifference where
  cityA : String
  cityB : String
  timezoneA : JsVal
  timezoneB : JsVal
  diffHours : JsNum
  diffMinutes : JsNum
  message : String
  deriving DecidableEq

/-- The message template of line 150. -/
def differenceMessage (h : Host) (cityA cityB : String) (diffHours : JsNum) : String :=
  cityB ++ "比" ++ cityA ++ (if diffHours.gtZero then "快" else "慢")
    ++ String.mk (JsNum.text h.fractionText diffHours.abs) ++ "小时"

/-- `getTimeDifference` at the clock reading `now`; `none` is the returned
`null`. -/
def getTimeDifference (h : Host) (now : Int) (cityA cityB : String) :
    Except JsError (Option TimeDifference) :=
  let timezoneA := getTimezoneByCity cityA
  let timezoneB := getTimezoneByCity cityB
  if !timezoneA.truthy || !timezoneB.truthy then .ok none
  else
    match resolveZone h timezoneA with
    | .error e => .error e
    | .ok offA =>
      let timeA := dateParse h (fmtClockEn h (now + offA now))
      match resolveZone h timezoneB with
      | .error e => .error e
      | .ok offB =>
        let timeB := dateParse h (fmtClockEn h (now + offB now))
        let diffHours := (JsNum.ofDates timeB timeA).divBy (1000 * 60 * 60)
        .ok (some
          { cityA := cityA
            cityB := cityB
            timezoneA := timezoneA
            timezoneB := timezoneB
            diffHours := diffHours
            diffMinutes := diffHours.mulBy 60
            message := differenceMessage h cityA cityB diffHours })

/-! ## getRelativeDate (lines 160-203) -/

/-- The object returned by `getRelativeDate`. -/
structure RelativeDate where
  date : String
  weekday : String
  relativeText : String
  iso : String
  deriving DecidableEq, Repr

/-- `Date.prototype.setDate(dt)` on a Date holding `t`: the day of the month is
replaced in local time, the time within the day is kept, and the result is
taken back to UTC and clipped. -/
def setDate (h : Host) (t : Int) (dt : Int) : Option Int :=
  let tl := h.LocalTime t
  let newDate :=
    MakeDate (MakeDay (YearFromDay (Day tl)) (MonthFromDay (Day tl)) dt) (TimeWithinDay tl)
  TimeClip (h.UTC newDate)

/-- `getDate()`: the day of the month in local time. -/
def getDate (h : Host) (t : Int) : Int := DateFromDay (Day (h.LocalTime t))

/-- The text of an integral Number inside a template literal (magnitudes below
10^21; larger ones never reach a returned label, the call raising first). -/
def intText (n : Int) : List Char :=
  if n < 0 then '-' :: decimal n.natAbs else decimal n.natAbs

/-- The label `relativeText` of lines 190-195. -/
def relativeTextOf (days : Int) : String :=
  if days = 0 then "今天"
  else if days = 1 then "明天"
  else if days = 2 then "后天"
  else if days = -1 then "昨天"
  else if days = -2 then "前天"
  else if days > 0 then String.mk (intText days) ++ "天后"
  else String.mk (intText |days|) ++ "天前"

/-- `getRelativeDate` at the clock reading `now`. On an invalid target Date the
two `toLocaleDateString` calls return the text `Invalid Date` without looking
at the options, and `toISOString` raises a RangeError. -/
def getRelativeDate (h : Host) (now : Int) (days : Int) (timezone : JsVal) :
    Except JsError RelativeDate :=
  match setDate h now (getDate h now + days) with
  | none => .error (.rangeError "Invalid time value")
  | some target =>
    if timezone.truthy then
      match resolveZone h timezone with
      | .error e => .error e
      | .ok off =>
        .ok { date := fmtDateZh2 (civilOfDay (Day (target + off target)))
              weekday := weekdayName (target + off target)
              relativeText := relativeTextOf days
              iso := toISOString target }
    else
      .ok { date := fmtDateZh (civilOfDay (Day (h.LocalTime target)))
            weekday := weekdayName (h.LocalTime target)
            relativeText := relativeTextOf days
            iso := toISOString target }

/-- The local time value `setDate` aims at when the day of the month is moved
by `n`: day number plus `n`, same time within the day. -/
def shiftedLocal (h : Host) (now n : Int) : Int :=
  MakeDate (Day (h.LocalTime now) + n) (TimeWithinDay (h.LocalTime now))

/-! ## getWeekday (lines 210-239) -/

/-- The two variants returned by `getWeekday`. -/
inductive WeekdayResult where
  | ok (date weekday iso : String)
  | error (error : String)
  deriving DecidableEq, Repr

/-- `text.replace(c, rep)` with a one-character string pattern: the first
occurrence only. -/
def replaceFirst (c : Char) (rep : List Char) : List Char → List Char
  | [] => []
  | x :: xs => if x = c then rep ++ xs else x :: replaceFirst c rep xs

/-- The global replacement of `/` by `-` in line 221. -/
def replaceSlashes (s : List Char) : List Char :=
  s.map (fun c => if c = '/' then '-' else c)

/-- The normalisation of lines 212-222. -/
def normalizeDate (s : List Char) : List Char :=
  let s1 :=
    if s.contains '年' then
      replaceFirst '日' [] (replaceFirst '月' ['-'] (replaceFirst '年' ['-'] s))
    else s
  if s1.contains '/' then replaceSlashes s1 else s1

/-- `getWeekday`. -/
def getWeekday (h : Host) (dateString : String) : WeekdayResult :=
  match dateParse h (normalizeDate dateString.toList) with
  | none => .error "无效的日期格式"
  | some t =>
    .ok (fmtDateZh (civilOfDay (Day (h.LocalTime t))))
        (weekdayName (h.LocalTime t))
        (String.mk (isoDate t))

/-! ## parseTimeQuery (lines 246-313)

Each regular expression is matched as the engine does: the leftmost start
position wins, and at one position the alternatives are tried in the order
written, an optional item first with and then without it. -/

/-- The first position of `s`, from the left, at which `f` succeeds. -/
def firstMatch {α : Type} (f : List Char → Option α) : List Char → Option α
  | [] => f []
  | c :: cs => (f (c :: cs)).orElse (fun _ => firstMatch f cs)

/-- Removes the prefix `p` from `s`. -/
def stripPrefix : List Char → List Char → Option (List Char)
  | [], s => some s
  | _ :: _, [] => none
  | p :: ps, c :: cs => if p = c then stripPrefix ps cs else none

/-- An optional literal `(?:p)?` followed by the continuation `k`. -/
def optionalThen (p : String) (s : List Char) (k : List Char → Bool) : Bool :=
  (match stripPrefix p.toList s with
   | some r => k r
   | none => false) || k s

/-- Whether one of the literals starts `s`. -/
def startsWithAny (ps : List String) (s : List Char) : Bool :=
  ps.any (fun p => p.toList.isPrefixOf s)

/-- The phrases of the current-time test of line 248. -/
def CURRENT_TIME_PHRASES : List String := ["现在几点", "当前时间", "现在时间", "几点了"]

/-- The city alternation of the expressions of lines 256 and 267, in the order
written. -/
def CITY_ALTERNATION : List String :=
  [ "北京", "上海", "广州", "香港", "东京", "纽约", "伦敦", "巴黎", "洛杉矶", "悉尼",
    "莫斯科", "新加坡", "柏林", "罗马", "首尔", "多伦多", "墨西哥城", "里约热内卢",
    "开罗", "约翰内斯堡", "迪拜", "孟买", "曼谷", "台北" ]

/-- The test of line 248 at one position. -/
def currentTimeAt (s : List Char) : Option Unit :=
  if startsWithAny CURRENT_TIME_PHRASES s then some () else none

/-- The expression of line 256 at one position: the captured city. -/
def cityTimeAt (s : List Char) : Option String :=
  CITY_ALTERNATION.findSome? fun c =>
    match stripPrefix c.toList s with
    | some r => if optionalThen "的" r (startsWithAny ["时间", "几点了"]) then some c else none
    | none => none

/-- The expression of line 267 at one position: the two captured cities. -/
def timeDifferenceAt (s : List Char) : Option (String × String) :=
  CITY_ALTERNATION.findSome? fun a =>
    match stripPrefix a.toList s with
    | some ('和' :: r1) =>
      CITY_ALTERNATION.findSome? fun b =>
        match stripPrefix b.toList r1 with
        | some r2 =>
          if optionalThen "之间" r2 (fun r3 => optionalThen "的" r3 (startsWithAny ["时差"]))
          then some (a, b) else none
        | none => none
    | _ => none

/-- The words of the expression of line 278, in the order written. -/
def RELATIVE_WORDS : List String := ["今天", "明天", "后天", "大后天", "昨天", "前天", "大前天"]

/-- The expression of line 278 at one position: capture 1 and, for the numeric
alternative, capture 2. The run of digits is the longest one: a shorter run is
followed by a digit, never by `天`. -/
def relativeDayAt (s : List Char) : Option (List Char × Option (List Char)) :=
  match RELATIVE_WORDS.find? (fun w => w.toList.isPrefixOf s) with
  | some w => some (w.toList, none)
  | none =>
    let ds := s.takeWhile isDigit
    match s.dropWhile isDigit with
    | '天' :: x :: _ =>
      if !ds.isEmpty && (x == '后' || x == '前') then some (ds ++ ['天', x], some ds)
      else none
    | _ => none

/-- Exactly `n` digits at the start of `s`: the digits and the rest. -/
def takeDigits : Nat → List Char → Option (List Char × List Char)
  | 0, s => some ([], s)
  | _ + 1, [] => none
  | n + 1, c :: cs =>
    if isDigit c then (takeDigits n cs).map (fun p => (c :: p.1, p.2)) else none

/-- The tail `(?:是)?(?:星期几|周几|礼拜几)` of the expression of line 299. -/
def weekdayTail (s : List Char) : Bool :=
  optionalThen "是" s (startsWithAny ["星期几", "周几", "礼拜几"])

/-- The expression of line 299 at one position: the captured date text. A
`\d{1,2}` takes two digits first and one digit on backtracking; `[日]?` takes
the character first and does without it on backtracking. -/
def dateWeekdayAt (s : List Char) : Option (List Char) :=
  match takeDigits 4 s with
  | some (y, c1 :: r1) =>
    if c1 = '-' ∨ c1 = '/' ∨ c1 = '年' then
      [2, 1].findSome? fun k1 =>
        match takeDigits k1 r1 with
        | some (m, c2 :: r2) =>
          if c2 = '-' ∨ c2 = '/' ∨ c2 = '月' then
            [2, 1].findSome? fun k2 =>
              match takeDigits k2 r2 with
              | some (d, r3) =>
                let head := y ++ c1 :: m ++ c2 :: d
                (match r3 with
                 | '日' :: r4 => if weekdayTail r4 then some (head ++ ['日']) else none
                 | _ => none).orElse
                  (fun _ => if weekdayTail r3 then some head else none)
              | none => none
          else none
        | _ => none
    else none
  | _ => none

/-- `parseInt` on a run of ASCII digits: the value, kept exact. -/
def parseInt (ds : List Char) : Nat :=
  ds.foldl (fun n c => n * 10 + (c.toNat - 48)) 0

/-- `text.includes(pat)`. -/
def includes (pat : List Char) : List Char → Bool
  | [] => pat.isEmpty
  | c :: cs => pat.isPrefixOf (c :: cs) || includes pat cs

/-- The day count of lines 280-289 from the two captures. -/
def relativeDays (g1 : List Char) (g2 : Option (List Char)) : Int :=
  if g1 = "今天".toList then 0
  else if g1 = "明天".toList then 1
  else if g1 = "后天".toList then 2
  else if g1 = "大后天".toList then 3
  else if g1 = "昨天".toList then -1
  else if g1 = "前天".toList then -2
  else if g1 = "大前天".toList then -3
  else if includes "天后".toList g1 then (parseInt (g2.getD []) : Int)
  else if includes "天前".toList g1 then -(parseInt (g2.getD []) : Int)
  else 0

/-- The object returned by `parseTimeQuery`, by its `type`. -/
inductive QueryResult where
  | current_time (data : TimeInfo)
  | city_time (city : String) (data : Option CityTimeInfo)
  | time_difference (cityA cityB : String) (data : Option TimeDifference)
  | relative_date (days : Int) (data : RelativeDate)
  | date_weekday (date : String) (data : WeekdayResult)
  | unknown (query : String)
  deriving DecidableEq

/-- The `type` field. -/
def QueryResult.type : QueryResult → String
  | .current_time _ => "current_time"
  | .city_time _ _ => "city_time"
  | .time_difference _ _ _ => "time_difference"
  | .relative_date _ _ => "relative_date"
  | .date_weekday _ _ => "date_weekday"
  | .unknown _ => "unknown"

/-- `parseTimeQuery` at the clock reading `now`. -/
def parseTimeQuery (h : Host) (now : Int) (query : String) :
    Except JsError QueryResult :=
  let q := query.toList
  if (firstMatch currentTimeAt q).isSome then
    (getCurrentTime h now .undefined).map .current_time
  else
    match firstMatch cityTimeAt q with
    | some city => (getCityTime h now city).map (.city_time city)
    | none =>
      match firstMatch timeDifferenceAt q with
      | some (a, b) => (getTimeDifference h now a b).map (.time_difference a b)
      | none =>
        match firstMatch relativeDayAt q with
        | some (g1, g2) =>
          let days := relativeDays g1 g2
          (getRelativeDate h now days .undefined).map (.relative_date days)
        | none =>
          match firstMatch dateWeekdayAt q with
          | some g => .ok (.date_weekday (String.mk g) (getWeekday h (String.mk g)))
          | none => .ok (.unknown query)

/-- No literal of `ws` starts with the character `c` (and none is empty). -/
def noneStartsWith (ws : List String) (c : Char) : Bool :=
  ws.all fun w =>
    match w.toList with
    | [] => false
    | p :: _ => p != c

/-- A character that starts no current-time phrase and no city name. -/
def inertChar (c : Char) : Bool :=
  noneStartsWith CURRENT_TIME_PHRASES c && noneStartsWith CITY_ALTERNATION c

/-- The five rules of the classifier in their order: the type each one gives
and whether its expression matches somewhere in the query. -/
def RULES : List (String × (List Char → Bool)) :=
  [ ("current_time", fun q => (firstMatch currentTimeAt q).isSome),
    ("city_time", fun q => (firstMatch cityTimeAt q).isSome),
    ("time_difference", fun q => (firstMatch timeDifferenceAt q).isSome),
    ("relative_date", fun q => (firstMatch relativeDayAt q).isSome),
    ("date_weekday", fun q => (firstMatch dateWeekdayAt q).isSome) ]

/-- The type of the lowest-numbered rule whose expression matches somewhere in
the query, and `unknown` when none does. -/
def lowestMatchingRule (q : List Char) : String :=
  ((RULES.find? (fun r => r.2 q)).map Prod.fst).getD "unknown"

/-! ## Sample hosts

Three processes, in New York, Shanghai and UTC, sharing one database. The
database gives `America/New_York` its offsets from 2022-11-06 on (summer time
from 2023-03-12 07:00 UTC to 2023-11-05 06:00 UTC) and every other zone of the
registry the offset it has on 1 January 2023, kept at all instants. Their
`parseOther` rejects every text. That is V8's answer for the texts of that kind
evaluated below, numeric dates followed by a word (`2023-1-15日`,
`2023-1月15日`): a word that is no month, zone or AM/PM keyword is illegal once a
number has been read. It is not V8's answer for every text: V8 reads `2023-1-`
as 1 January 2023. -/

/-- Offset of `America/New_York` at a UTC instant, for instants after
2022-11-06 06:00 UTC: UTC-4 between 2023-03-12 07:00 and 2023-11-05 06:00 UTC,
UTC-5 otherwise. -/
def newYorkOffset (t : Int) : Int :=
  if 1678604400000 ≤ t ∧ t < 1699164000000 then -14400000 else -18000000

/-- Offset of `America/New_York` at a local time value. A local time skipped in
spring (02:00 to 03:00 on 12 March) or repeated in autumn (01:00 to 02:00 on 5
November) is read with the offset in force before the shift. -/
def newYorkOffsetOfLocal (t : Int) : Int :=
  if 1678604400000 - 14400000 ≤ t ∧ t < 1699164000000 - 14400000 then -14400000
  else -18000000

/-- Offsets (hours) of the zones of the registry on 1 January 2023. -/
def sampleZones : List (String × Int) :=
  [ ("Asia/Shanghai", 8), ("Asia/Hong_Kong", 8), ("Asia/Taipei", 8),
    ("Asia/Tokyo", 9), ("Asia/Seoul", 9), ("Asia/Singapore", 8),
    ("Australia/Sydney", 11), ("Europe/Moscow", 3), ("Europe/London", 0),
    ("Europe/Paris", 1), ("Europe/Berlin", 1), ("Europe/Rome", 1),
    ("America/Los_Angeles", -8), ("America/Chicago", -6),
    ("America/Toronto", -5), ("America/Mexico_City", -6),
    ("America/Sao_Paulo", -3), ("Africa/Cairo", 2),
    ("Africa/Johannesburg", 2), ("Asia/Dubai", 4), ("Asia/Bangkok", 7),
    ("UTC", 0) ]

/-- The database of the sample host. -/
def sampleZone (id : String) : Option (Int → Int) :=
  if id = "America/New_York" then some newYorkOffset
  else if id = "Asia/Kolkata" then some (fun _ => 19800000)
  else (sampleZones.find? (fun p => p.1 == id)).map (fun p _ => p.2 * 3600000)

/-- A process in New York. -/
def hostNewYork : Host :=
  { zone := sampleZone
    localOffset := newYorkOffset
    localOffsetOfLocal := newYorkOffsetOfLocal
    hourCycle24 := false
    parseOther := fun _ => none
    fractionText := fun _ => [] }

/-- A process in Shanghai (UTC+8 with no seasonal shift, as since 1992). -/
def hostShanghai : Host :=
  { zone := sampleZone
    localOffset := fun _ => 28800000
    localOffsetOfLocal := fun _ => 28800000
    hourCycle24 := false
    parseOther := fun _ => none
    fractionText := fun _ => [] }

/-- A process in UTC. -/
def hostUTC : Host :=
  { zone := sampleZone
    localOffset := fun _ => 0
    localOffsetOfLocal := fun _ => 0
    hourCycle24 := false
    parseOther := fun _ => none
    fractionText := fun _ => [] }

/-! # Theorems -/

/-! ## The civil calendar -/

/-- The estimate of `YearFromDay` is at most one year too late. -/
theorem DayFromYear_estimate_low (a : Int) :
    400 * DayFromYear (1970 + a - 1) ≤ 146097 * a := by
  unfold DayFromYear
  omega

/-- The estimate of `YearFromDay` is at most one year too early. -/
theorem DayFromYear_estimate_high (a : Int) :
    146097 * (a + 1) ≤ 400 * DayFromYear (1970 + a + 2) := by
  unfold DayFromYear
  omega

/-- `YearFromDay d` is a year whose first day is not after `d` and whose
successor starts after `d`. -/
theorem YearFromDay_spec (d : Int) :
    DayFromYear (YearFromDay d) ≤ d ∧ d < DayFromYear (YearFromDay d + 1) := by
  have h1 := DayFromYear_estimate_low (d * 400 / 146097)
  have h2 := DayFromYear_estimate_high (d * 400 / 146097)
  have h3 : 146097 * (d * 400 / 146097) ≤ d * 400 := by omega
  have h4 : d * 400 < 146097 * (d * 400 / 146097 + 1) := by omega
  have e : 1970 + d * 400 / 146097 - 1 + 1 = 1970 + d * 400 / 146097 := by ring
  have e2 : 1970 + d * 400 / 146097 + 1 + 1 = 1970 + d * 400 / 146097 + 2 := by ring
  unfold YearFromDay
  simp only
  split_ifs with c1 c2
  · rw [e2]; exact ⟨c1, by omega⟩
  · exact ⟨c2, by omega⟩
  · rw [e]; exact ⟨by omega, by omega⟩

/-- A year is as long as `DaysInYear` says. -/
theorem DayFromYear_succ (y : Int) : DayFromYear (y + 1) = DayFromYear y + DaysInYear y := by
  unfold DayFromYear DaysInYear
  split_ifs <;> omega

/-- Years start in order. -/
theorem DayFromYear_mono (y z : Int) (h : y ≤ z) : DayFromYear y ≤ DayFromYear z := by
  unfold DayFromYear
  omega

/-- `YearFromDay d` is the only year containing day `d`. -/
theorem YearFromDay_unique (d y : Int) (h1 : DayFromYear y ≤ d)
    (h2 : d < DayFromYear (y + 1)) : YearFromDay d = y := by
  obtain ⟨s1, s2⟩ := YearFromDay_spec d
  by_contra hne
  rcases lt_or_gt_of_ne hne with hlt | hgt
  · have := DayFromYear_mono (YearFromDay d + 1) y (by omega)
    omega
  · have := DayFromYear_mono (y + 1) (YearFromDay d) (by omega)
    omega

/-- The day within the year lies within the year. -/
theorem DayWithinYear_range (d : Int) :
    0 ≤ DayWithinYear d ∧ DayWithinYear d < DaysInYear (YearFromDay d) := by
  obtain ⟨s1, s2⟩ := YearFromDay_spec d
  rw [DayFromYear_succ] at s2
  unfold DayWithinYear
  omega

/-- The leap indicator is 0 or 1 and gives the length of the year. -/
theorem InLeapYear_eq (y : Int) :
    (InLeapYear y = 0 ∨ InLeapYear y = 1) ∧ DaysInYear y = 365 + InLeapYear y := by
  unfold InLeapYear DaysInYear
  split_ifs <;> omega

/-- The month found for a day of month `m`. -/
theorem monthOfDayInYear_monthStart (m leap dt : Int) (h0 : 0 ≤ m) (h11 : m ≤ 11)
    (hl : leap = 0 ∨ leap = 1) (h1 : 1 ≤ dt) (h2 : dt ≤ daysInMonth m leap) :
    monthOfDayInYear (monthStart m leap + dt - 1) leap = m := by
  unfold daysInMonth at h2
  unfold monthOfDayInYear monthStart
  omega

/-- The civil date of a day built by `MakeDay` from a valid date is that date. -/
theorem civilOfDay_MakeDay (y m dt : Int) (h0 : 0 ≤ m) (h11 : m ≤ 11) (h1 : 1 ≤ dt)
    (h2 : dt ≤ daysInMonth m (InLeapYear y)) :
    civilOfDay (MakeDay y m dt) = { year := y, month := m + 1, day := dt } := by
  obtain ⟨hl, hlen⟩ := InLeapYear_eq y
  have hdiv : m / 12 = 0 := by omega
  have hmod : m % 12 = m := by omega
  have hmk : MakeDay y m dt = DayFromYear y + (monthStart m (InLeapYear y) + dt - 1) := by
    unfold MakeDay
    simp only [hdiv, hmod, add_zero]
    omega
  have hmo := monthOfDayInYear_monthStart m (InLeapYear y) dt h0 h11 hl h1 h2
  have hrange : 0 ≤ monthStart m (InLeapYear y) + dt - 1
      ∧ monthStart m (InLeapYear y) + dt - 1 < 365 + InLeapYear y := by
    unfold daysInMonth at h2
    unfold monthStart
    omega
  have hy : YearFromDay (MakeDay y m dt) = y := by
    apply YearFromDay_unique
    · rw [hmk]; omega
    · rw [hmk, DayFromYear_succ, hlen]; omega
  have hdwy : DayWithinYear (MakeDay y m dt) = monthStart m (InLeapYear y) + dt - 1 := by
    unfold DayWithinYear
    rw [hy, hmk]; omega
  have hm : MonthFromDay (MakeDay y m dt) = m := by
    unfold MonthFromDay
    rw [hdwy, hy, hmo]
  have hd : DateFromDay (MakeDay y m dt) = dt := by
    unfold DateFromDay
    rw [hm, hdwy, hy]; omega
  unfold civilOfDay
  rw [hy, hm, hd]

/-! ## The registry -/

/-- Every key of the registry is mapped to its timezone identifier. -/
theorem getTimezoneByCity_registered :
    ∀ p ∈ TIMEZONE_MAP, getTimezoneByCity p.1 = .str p.2 := by
  decide

/-- No identifier of the registry is the empty string. -/
theorem registry_values_truthy :
    ∀ p ∈ TIMEZONE_MAP, (JsVal.str p.2).truthy = true := by
  decide

/-- A string that is neither a key of the registry nor a key of
`Object.prototype` is mapped to `null`. -/
theorem getTimezoneByCity_unknown (c : String) (h1 : c ∉ registeredCities)
    (h2 : c ∉ OBJECT_PROTOTYPE_KEYS) : getTimezoneByCity c = .null := by
  have hown : ownTimezone c = none := by
    unfold ownTimezone
    rw [Option.map_eq_none', List.find?_eq_none]
    intro p hp heq
    apply h1
    have : p.1 = c := by simpa using heq
    rw [← this]
    exact List.mem_map_of_mem Prod.fst hp
  simp [getTimezoneByCity, lookupProperty, hown, h2, JsVal.truthy]

/-- On a host that knows the registry's zones, `getCityTime` of a registered
city returns a snapshot carrying the city and its timezone identifier. -/
theorem getCityTime_registered (h : Host) (hk : h.knowsRegistry) (now : Int)
    (p : String × String) (hp : p ∈ TIMEZONE_MAP) :
    ∃ info, getCityTime h now p.1 = .ok (some ⟨info, p.1, .str p.2⟩) := by
  have h1 := getTimezoneByCity_registered p hp
  have h2 := registry_values_truthy p hp
  have h3 := hk p hp
  obtain ⟨off, hoff⟩ := Option.isSome_iff_exists.mp h3
  simp [getCityTime, getCurrentTime, h1, h2, resolveZone, hoff]

/-- C1 (code at the failing input): `constructor` is not a key of the registry,
yet `getTimezoneByCity` returns the member inherited from `Object.prototype`
instead of `null`, and `getCityTime` raises a RangeError instead of returning
`null`, on every host and at every instant. -/
theorem C1_inherited_key_is_not_null (h : Host) (now : Int) :
    "constructor" ∉ registeredCities
    ∧ getTimezoneByCity "constructor" = .inherited "constructor"
    ∧ getCityTime h now "constructor"
        = .error (.rangeError
            "Invalid time zone specified: function Object() \x7b [native code] \x7d") := by
  refine ⟨by decide, by decide, ?_⟩
  have h1 : getTimezoneByCity "constructor" = .inherited "constructor" := by decide
  have h2 : inheritedText "constructor" = "function Object() \x7b [native code] \x7d" := by
    decide
  have h3 : "Invalid time zone specified: " ++ "function Object() \x7b [native code] \x7d"
      = "Invalid time zone specified: function Object() \x7b [native code] \x7d" := by
    decide
  simp [getCityTime, getCurrentTime, h1, JsVal.truthy, resolveZone, h2, h3]

/-! ## getTimeDifference -/

set_option maxRecDepth 100000 in
/-- Every text `HH:mm` with an hour up to 24 and a minute below 60 is a clock
text and not a hyphenated date. -/
theorem clock_shape : ∀ a, a < 25 → ∀ b, b < 60 →
    ((splitYMD (padded 2 a ++ ':' :: padded 2 b)).isNone
      && isClockText (padded 2 a ++ ':' :: padded 2 b)) = true := by
  decide

/-- The hour of a time value is below 24. -/
theorem HourFromTime_lt (t : Int) : HourFromTime t < 24 := by
  unfold HourFromTime TimeWithinDay msPerDay
  omega

/-- The minute of a time value is below 60. -/
theorem MinFromTime_lt (t : Int) : MinFromTime t < 60 := by
  unfold MinFromTime TimeWithinDay msPerDay
  omega

/-- `new Date` of the clock text built by `getTimeDifference` is an invalid
Date, on every host and at every instant. -/
theorem dateParse_clock (h : Host) (t : Int) : dateParse h (fmtClockEn h t) = none := by
  have hh := HourFromTime_lt t
  have hm := MinFromTime_lt t
  have hs : (if (h.hourCycle24 && HourFromTime t == 0) = true then 24
      else HourFromTime t) < 25 := by
    split <;> omega
  have hc := clock_shape _ hs _ hm
  rw [Bool.and_eq_true, Option.isNone_iff_eq_none] at hc
  obtain ⟨h1, h2⟩ := hc
  unfold dateParse fmtClockEn
  simp only [h1, h2, if_true]

/-- For two registered cities, on a host that knows their zones,
`getTimeDifference` returns an object whose `diffHours` and `diffMinutes` are
NaN, at every instant. -/
theorem getTimeDifference_registered (h : Host) (hk : h.knowsRegistry) (now : Int)
    (pA pB : String × String) (hA : pA ∈ TIMEZONE_MAP) (hB : pB ∈ TIMEZONE_MAP) :
    getTimeDifference h now pA.1 pB.1 = .ok (some
      { cityA := pA.1, cityB := pB.1, timezoneA := .str pA.2, timezoneB := .str pB.2
        diffHours := none, diffMinutes := none
        message := differenceMessage h pA.1 pB.1 none }) := by
  have a1 := getTimezoneByCity_registered pA hA
  have a2 := registry_values_truthy pA hA
  obtain ⟨offA, hoffA⟩ := Option.isSome_iff_exists.mp (hk pA hA)
  have b1 := getTimezoneByCity_registered pB hB
  have b2 := registry_values_truthy pB hB
  obtain ⟨offB, hoffB⟩ := Option.isSome_iff_exists.mp (hk pB hB)
  simp [getTimeDifference, a1, a2, b1, b2, resolveZone, hoffA, hoffB, dateParse_clock,
    JsNum.ofDates, JsNum.divBy, JsNum.mulBy]

/-- For two registered cities, on a host that knows their zones,
`getTimeDifference` returns an object built from one Number `d`: `diffHours`
is `d`, `diffMinutes` is `d` times 60 and the message is the template of line
150 filled with `d`. -/
theorem getTimeDifference_shape (h : Host) (hk : h.knowsRegistry) (now : Int)
    (pA pB : String × String) (hA : pA ∈ TIMEZONE_MAP) (hB : pB ∈ TIMEZONE_MAP) :
    ∃ d : JsNum, getTimeDifference h now pA.1 pB.1 = .ok (some
      { cityA := pA.1, cityB := pB.1, timezoneA := .str pA.2, timezoneB := .str pB.2
        diffHours := d, diffMinutes := d.mulBy 60
        message := differenceMessage h pA.1 pB.1 d }) := by
  have a1 := getTimezoneByCity_registered pA hA
  have a2 := registry_values_truthy pA hA
  obtain ⟨offA, hoffA⟩ := Option.isSome_iff_exists.mp (hk pA hA)
  have b1 := getTimezoneByCity_registered pB hB
  have b2 := registry_values_truthy pB hB
  obtain ⟨offB, hoffB⟩ := Option.isSome_iff_exists.mp (hk pB hB)
  refine ⟨(JsNum.ofDates (dateParse h (fmtClockEn h (now + offB now)))
    (dateParse h (fmtClockEn h (now + offA now)))).divBy (1000 * 60 * 60), ?_⟩
  simp only [getTimeDifference, a1, a2, b1, b2, resolveZone, hoffA, hoffB, Bool.not_true,
    Bool.or_self, Bool.false_eq_true, if_false]

/-- C2 (code at the failing input): at 2023-01-01T12:00Z New York is 13 hours
behind Beijing (UTC-5 against UTC+8 in the host's database), yet
`getTimeDifference('北京', '纽约')` returns NaN for `diffHours`: the two clock
texts `20:00` and `07:00` are no valid Dates. -/
theorem C2_diffHours_is_NaN :
    getTimeDifference hostShanghai 1672574400000 "北京" "纽约" = .ok (some
      { cityA := "北京", cityB := "纽约"
        timezoneA := .str "Asia/Shanghai", timezoneB := .str "America/New_York"
        diffHours := none, diffMinutes := none
        message := "纽约比北京慢NaN小时" })
    ∧ fmtClockEn hostShanghai (1672574400000 + 28800000) = "20:00".toList
    ∧ fmtClockEn hostShanghai (1672574400000 + newYorkOffset 1672574400000) = "07:00".toList
    ∧ (newYorkOffset 1672574400000 - 28800000) / 3600000 = -13 := by
  decide

/-- C3 (code at the failing input): both directions return NaN, and NaN is not
equal to minus NaN, so `diffHours(A, B) == -diffHours(B, A)` is false. -/
theorem C3_antisymmetry_is_false_on_NaN :
    ∃ r1 r2,
      getTimeDifference hostShanghai 1672574400000 "北京" "纽约" = .ok (some r1)
      ∧ getTimeDifference hostShanghai 1672574400000 "纽约" "北京" = .ok (some r2)
      ∧ r1.diffHours = none ∧ r2.diffHours = none
      ∧ JsNum.looseEq r1.diffHours r2.diffHours.neg = false := by
  have hk : hostShanghai.knowsRegistry := by decide
  refine ⟨_, _,
    getTimeDifference_registered hostShanghai hk _ ("北京", "Asia/Shanghai")
      ("纽约", "America/New_York") (by decide) (by decide),
    getTimeDifference_registered hostShanghai hk _ ("纽约", "America/New_York")
      ("北京", "Asia/Shanghai") (by decide) (by decide), rfl, rfl, rfl⟩

/-- For two registered cities, on a host that knows their zones and at every
instant, the returned message is cityB, `比`, cityA, `慢NaN小时`, whichever city is
ahead, and the comparison `diffMinutes == diffHours * 60` is false, both
Numbers being NaN. -/
theorem getTimeDifference_message_NaN (h : Host) (hk : h.knowsRegistry) (now : Int)
    (pA pB : String × String) (hA : pA ∈ TIMEZONE_MAP) (hB : pB ∈ TIMEZONE_MAP) :
    ∃ r, getTimeDifference h now pA.1 pB.1 = .ok (some r)
      ∧ r.message = pB.1 ++ "比" ++ pA.1 ++ "慢" ++ "NaN" ++ "小时"
      ∧ JsNum.looseEq r.diffMinutes (r.diffHours.mulBy 60) = false :=
  ⟨_, getTimeDifference_registered h hk now pA pB hA hB, rfl, rfl⟩

/-- C4 (code at the failing input): at 2023-01-01T12:00Z Tokyo (UTC+9) is nine
hours ahead of London (UTC+0), so the message for cityA = 伦敦, cityB = 东京 should
read `东京比伦敦快9小时` with diffMinutes = 540. The code returns the message
`东京比伦敦慢NaN小时`, diffHours and diffMinutes are NaN, and the comparison
`diffMinutes == diffHours * 60` is false. -/
theorem C4_message_carries_NaN :
    ∃ r, getTimeDifference hostShanghai 1672574400000 "伦敦" "东京" = .ok (some r)
      ∧ r.message = "东京比伦敦慢NaN小时"
      ∧ r.diffHours = none ∧ r.diffMinutes = none
      ∧ JsNum.looseEq r.diffMinutes (r.diffHours.mulBy 60) = false
      ∧ sampleZones.lookup "Asia/Tokyo" = some 9
      ∧ sampleZones.lookup "Europe/London" = some 0 :=
  ⟨{ cityA := "伦敦", cityB := "东京"
     timezoneA := .str "Europe/London", timezoneB := .str "Asia/Tokyo"
     diffHours := none, diffMinutes := none
     message := "东京比伦敦慢NaN小时" },
    by decide, rfl, rfl, rfl, rfl, by decide, by decide⟩

/-! ## getRelativeDate -/

/-- The month of a day within the year lies in 0..11. -/
theorem monthOfDayInYear_range (dwy leap : Int) :
    0 ≤ monthOfDayInYear dwy leap ∧ monthOfDayInYear dwy leap ≤ 11 := by
  unfold monthOfDayInYear
  omega

/-- The month of a day number lies in 0..11. -/
theorem MonthFromDay_range (d : Int) : 0 ≤ MonthFromDay d ∧ MonthFromDay d ≤ 11 :=
  monthOfDayInYear_range _ _

/-- A month start followed by the day of the month gives back the day within
the year. -/
theorem monthStart_monthOfDayInYear (dwy leap : Int) :
    monthStart (monthOfDayInYear dwy leap) leap
      + (dwy - monthStart (monthOfDayInYear dwy leap) leap + 1) - 1 = dwy := by
  omega

/-- Replacing the day of the month of day `d` by its own value plus `n` gives
day `d + n`. -/
theorem MakeDay_shift (d n : Int) :
    MakeDay (YearFromDay d) (MonthFromDay d) (DateFromDay d + n) = d + n := by
  obtain ⟨h0, h11⟩ := MonthFromDay_range d
  have hdiv : MonthFromDay d / 12 = 0 := by omega
  have hmod : MonthFromDay d % 12 = MonthFromDay d := by omega
  unfold MakeDay
  simp only [hdiv, hmod, add_zero]
  unfold DateFromDay DayWithinYear
  omega

/-- The day number and the time within the day of `d * msPerDay + r`. -/
theorem Day_MakeDate (d r : Int) (h0 : 0 ≤ r) (h1 : r < msPerDay) :
    Day (MakeDate d r) = d := by
  unfold Day MakeDate msPerDay at *
  omega

/-- The time within a day is non-negative and less than a day. -/
theorem TimeWithinDay_range (t : Int) : 0 ≤ TimeWithinDay t ∧ TimeWithinDay t < msPerDay := by
  unfold TimeWithinDay msPerDay
  omega

/-- What `setDate(getDate() + n)` computes. -/
theorem setDate_getDate (h : Host) (now n : Int) :
    setDate h now (getDate h now + n) = TimeClip (h.UTC (shiftedLocal h now n)) := by
  unfold setDate getDate shiftedLocal
  simp only [MakeDay_shift]

/-- The label of lines 190-195, case by case. -/
theorem relativeTextOf_table (n : Int) :
    (n = 0 → relativeTextOf n = "今天")
    ∧ (n = 1 → relativeTextOf n = "明天")
    ∧ (n = 2 → relativeTextOf n = "后天")
    ∧ (n = -1 → relativeTextOf n = "昨天")
    ∧ (n = -2 → relativeTextOf n = "前天")
    ∧ (2 < n → relativeTextOf n = String.mk (decimal n.toNat) ++ "天后")
    ∧ (n < -2 → relativeTextOf n = String.mk (decimal n.natAbs) ++ "天前") := by
  refine ⟨?_, ?_, ?_, ?_, ?_, ?_, ?_⟩
  · rintro rfl; rfl
  · rintro rfl; rfl
  · rintro rfl; rfl
  · rintro rfl; rfl
  · rintro rfl; rfl
  · intro hn
    have e : n.natAbs = n.toNat := by omega
    unfold relativeTextOf intText
    rw [if_neg (by omega), if_neg (by omega), if_neg (by omega), if_neg (by omega),
      if_neg (by omega), if_pos (by omega), if_neg (by omega), e]
  · intro hn
    have e : |n|.natAbs = n.natAbs := Int.natAbs_abs n
    have e2 : ¬ (|n| < 0) := not_lt.mpr (abs_nonneg n)
    unfold relativeTextOf intText
    rw [if_neg (by omega), if_neg (by omega), if_neg (by omega), if_neg (by omega),
      if_neg (by omega), if_neg (by omega), if_neg e2, e]

/-- A returned object carries the label computed from `days` alone. -/
theorem getRelativeDate_relativeText (h : Host) (now n : Int) (tz : JsVal)
    (r : RelativeDate) (hr : getRelativeDate h now n tz = .ok r) :
    r.relativeText = relativeTextOf n := by
  unfold getRelativeDate at hr
  split at hr
  · cases hr
  · split at hr
    · split at hr
      · cases hr
      · cases hr; rfl
    · cases hr; rfl

/-- `getRelativeDate` returns when the target Date is valid and the timezone
argument, if given, is accepted by the host. -/
theorem getRelativeDate_returns (h : Host) (now n : Int) (tz : JsVal) (target : Int)
    (ht : setDate h now (getDate h now + n) = some target)
    (hz : tz.truthy = false ∨ ∃ off, resolveZone h tz = .ok off) :
    ∃ r, getRelativeDate h now n tz = .ok r := by
  unfold getRelativeDate
  rw [ht]
  by_cases htr : tz.truthy = true
  · rcases hz with hf | ⟨off, hoff⟩
    · rw [hf] at htr; cases htr
    · simp only [htr, hoff, if_true]
      exact ⟨_, rfl⟩
  · simp only [htr]
    exact ⟨_, rfl⟩

/-- C5 (counterexample): for n = 200000000 the call raises a RangeError, and so
it does for n = 1 with a timezone the host does not know; there is no
`relativeText` at all. -/
theorem C5_no_label_for_huge_offset :
    getRelativeDate hostShanghai 1672574400000 200000000 .undefined
      = .error (.rangeError "Invalid time value")
    ∧ getRelativeDate hostShanghai 1672574400000 1 (.str "Mars/Olympus")
      = .error (.rangeError "Invalid time zone specified: Mars/Olympus") := by
  decide

/-- C5 (amended): whenever the target Date is valid and the timezone argument,
if given, is one the host accepts, `getRelativeDate(n, tz)` returns, and its
`relativeText` is `今天`, `明天`, `后天`, `昨天`, `前天` for 0, 1, 2, -1, -2, the
decimal text of n followed by `天后` for every other positive n and the decimal
text of abs(n) followed by `天前` for every other negative n; the clock, the host
and the timezone do not enter the label. -/
theorem C5_relative_label (h : Host) (now n : Int) (tz : JsVal) (target : Int)
    (ht : setDate h now (getDate h now + n) = some target)
    (hz : tz.truthy = false ∨ ∃ off, resolveZone h tz = .ok off) :
    ∃ r, getRelativeDate h now n tz = .ok r
      ∧ (n = 0 → r.relativeText = "今天")
      ∧ (n = 1 → r.relativeText = "明天")
      ∧ (n = 2 → r.relativeText = "后天")
      ∧ (n = -1 → r.relativeText = "昨天")
      ∧ (n = -2 → r.relativeText = "前天")
      ∧ (2 < n → r.relativeText = String.mk (decimal n.toNat) ++ "天后")
      ∧ (n < -2 → r.relativeText = String.mk (decimal n.natAbs) ++ "天前") := by
  obtain ⟨r, hr⟩ := getRelativeDate_returns h now n tz target ht hz
  have hl := getRelativeDate_relativeText h now n tz r hr
  have htab := relativeTextOf_table n
  rw [← hl] at htab
  exact ⟨r, hr, htab⟩

/-- The Shanghai host resolves `America/New_York`. -/
theorem resolveZone_newYork :
    resolveZone hostShanghai (.str "America/New_York") = .ok newYorkOffset := by
  simp [resolveZone, hostShanghai, sampleZone]

/-- C5 (amended) applied to n = -5 rendered in New York. -/
theorem C5_relative_label_witness :
    (setDate hostShanghai 1672574400000 (getDate hostShanghai 1672574400000 + (-5))
        = some 1672142400000)
    ∧ (∃ off, resolveZone hostShanghai (.str "America/New_York") = .ok off)
    ∧ ∃ r, getRelativeDate hostShanghai 1672574400000 (-5) (.str "America/New_York") = .ok r
      ∧ ((-5 : Int) = 0 → r.relativeText = "今天")
      ∧ ((-5 : Int) = 1 → r.relativeText = "明天")
      ∧ ((-5 : Int) = 2 → r.relativeText = "后天")
      ∧ ((-5 : Int) = -1 → r.relativeText = "昨天")
      ∧ ((-5 : Int) = -2 → r.relativeText = "前天")
      ∧ (2 < (-5 : Int) → r.relativeText = String.mk (decimal (-5 : Int).toNat) ++ "天后")
      ∧ ((-5 : Int) < -2 → r.relativeText = String.mk (decimal (-5 : Int).natAbs) ++ "天前") :=
  ⟨by decide, ⟨newYorkOffset, resolveZone_newYork⟩,
    C5_relative_label hostShanghai 1672574400000 (-5) (.str "America/New_York")
      1672142400000 (by decide) (Or.inr ⟨newYorkOffset, resolveZone_newYork⟩)⟩

/-- `getCurrentTime` without a usable timezone argument renders in the zone of
the process. -/
theorem getCurrentTime_local (h : Host) (now : Int) (tz : JsVal)
    (hf : tz.truthy = false) :
    getCurrentTime h now tz = .ok
      { time := fmtTimeZh (h.LocalTime now)
        date := fmtDateZh (civilOfDay (Day (h.LocalTime now)))
        weekday := weekdayName (h.LocalTime now)
        timestamp := now
        iso := toISOString now } := by
  simp only [getCurrentTime, hf]
  rfl

/-- `getCurrentTime` with a timezone the host accepts renders with its offset. -/
theorem getCurrentTime_zone (h : Host) (now : Int) (tz : JsVal) (off : Int → Int)
    (htr : tz.truthy = true) (hoff : resolveZone h tz = .ok off) :
    getCurrentTime h now tz = .ok
      { time := fmtTimeZh (now + off now)
        date := fmtDateZh2 (civilOfDay (Day (now + off now)))
        weekday := weekdayName (now + off now)
        timestamp := now
        iso := toISOString now } := by
  simp only [getCurrentTime, htr, hoff, if_true]

/-- `getRelativeDate` without a usable timezone argument, on a valid target. -/
theorem getRelativeDate_local (h : Host) (now n : Int) (tz : JsVal) (target : Int)
    (ht : setDate h now (getDate h now + n) = some target) (hf : tz.truthy = false) :
    getRelativeDate h now n tz = .ok
      { date := fmtDateZh (civilOfDay (Day (h.LocalTime target)))
        weekday := weekdayName (h.LocalTime target)
        relativeText := relativeTextOf n
        iso := toISOString target } := by
  unfold getRelativeDate
  rw [ht]
  simp only [hf]
  rfl

/-- `getRelativeDate` with a timezone the host accepts, on a valid target. -/
theorem getRelativeDate_zone (h : Host) (now n : Int) (tz : JsVal) (target : Int)
    (off : Int → Int) (ht : setDate h now (getDate h now + n) = some target)
    (htr : tz.truthy = true) (hoff : resolveZone h tz = .ok off) :
    getRelativeDate h now n tz = .ok
      { date := fmtDateZh2 (civilOfDay (Day (target + off target)))
        weekday := weekdayName (target + off target)
        relativeText := relativeTextOf n
        iso := toISOString target } := by
  unfold getRelativeDate
  rw [ht]
  simp only [htr, hoff, if_true]

/-- The day number of the shifted local time is the local day number plus `n`. -/
theorem Day_shiftedLocal (h : Host) (now n : Int) :
    Day (shiftedLocal h now n) = Day (h.LocalTime now) + n := by
  obtain ⟨h0, h1⟩ := TimeWithinDay_range (h.LocalTime now)
  exact Day_MakeDate _ _ h0 h1

/-- C6 (counterexample): a process in UTC at 2023-11-05T04:30Z, rendering in
`America/New_York` (00:30 on 5 November there, one and a half hours before the
clocks go back): `getCurrentTime` reports 2023/11/05 and `getRelativeDate(1)`
reports 2023/11/05 again, not the next calendar date. -/
theorem C6_next_day_is_same_date :
    (getCurrentTime hostUTC 1699158600000 (.str "America/New_York")).map (·.date)
      = .ok "2023/11/05"
    ∧ (getRelativeDate hostUTC 1699158600000 1 (.str "America/New_York")).map (·.date)
      = .ok "2023/11/05" := by
  decide

/-- The day number rendered at the target: when the shifted local time exists
on the local clock and the rendering offset stays as far from the process
offset at the target as it is at `now`, the target read with the rendering
offset lies `n` days after `now` read with it. -/
theorem rendered_day_shift (h : Host) (now n : Int) (off : Int → Int)
    (hround : h.LocalTime (h.UTC (shiftedLocal h now n)) = shiftedLocal h now n)
    (hdiff : off (h.UTC (shiftedLocal h now n)) - h.localOffset (h.UTC (shiftedLocal h now n))
      = off now - h.localOffset now) :
    Day (h.UTC (shiftedLocal h now n) + off (h.UTC (shiftedLocal h now n)))
      = Day (now + off now) + n := by
  have hx : shiftedLocal h now n = now + h.localOffset now + n * msPerDay := by
    unfold shiftedLocal MakeDate Day TimeWithinDay Host.LocalTime msPerDay
    omega
  have hr : h.UTC (shiftedLocal h now n) + h.localOffset (h.UTC (shiftedLocal h now n))
      = shiftedLocal h now n := hround
  have ht : h.UTC (shiftedLocal h now n) + off (h.UTC (shiftedLocal h now n))
      = now + off now + n * msPerDay := by
    omega
  rw [ht]
  unfold Day msPerDay
  omega

/-- C6 (amended): the day shift is made on the local calendar of the process
and only the rendering uses the timezone argument. If the shifted local time is
a valid Date and exists on the local clock (it is not skipped by a forward
clock shift), and the offset of the zone used for rendering (the zone of the
process when no timezone is given) differs from the offset of the process zone
by the same amount at the target as at `now`, then both calls return,
`getCurrentTime` reports the civil date of `now` in the rendering zone and
`getRelativeDate(n)` reports, in the same format, the civil date `n` days
later. -/
theorem C6_calendar_days (h : Host) (now n : Int) (tz : JsVal) (off : Int → Int)
    (hz : (tz.truthy = false ∧ off = h.localOffset)
      ∨ (tz.truthy = true ∧ resolveZone h tz = .ok off))
    (hrange : -maxTime ≤ h.UTC (shiftedLocal h now n)
      ∧ h.UTC (shiftedLocal h now n) ≤ maxTime)
    (hround : h.LocalTime (h.UTC (shiftedLocal h now n)) = shiftedLocal h now n)
    (hdiff : off (h.UTC (shiftedLocal h now n)) - h.localOffset (h.UTC (shiftedLocal h now n))
      = off now - h.localOffset now) :
    ∃ c r, getCurrentTime h now tz = .ok c ∧ getRelativeDate h now n tz = .ok r
      ∧ c.date = (if tz.truthy then fmtDateZh2 else fmtDateZh)
          (civilOfDay (Day (now + off now)))
      ∧ r.date = (if tz.truthy then fmtDateZh2 else fmtDateZh)
          (civilOfDay (Day (now + off now) + n)) := by
  have hset : setDate h now (getDate h now + n) = some (h.UTC (shiftedLocal h now n)) := by
    rw [setDate_getDate, TimeClip, if_pos hrange]
  have hkey := rendered_day_shift h now n off hround hdiff
  rcases hz with ⟨hf, rfl⟩ | ⟨htr, hoff⟩
  · have hkey' : Day (h.LocalTime (h.UTC (shiftedLocal h now n)))
        = Day (now + h.localOffset now) + n := hkey
    refine ⟨_, _, getCurrentTime_local h now tz hf,
      getRelativeDate_local h now n tz _ hset hf, ?_, ?_⟩
    · simp only [hf]
      rfl
    · simp only [hf, hkey']
      rfl
  · refine ⟨_, _, getCurrentTime_zone h now tz off htr hoff,
      getRelativeDate_zone h now n tz _ off hset htr hoff, ?_, ?_⟩
    · simp only [htr, if_true]
    · simp only [htr, hkey, if_true]

/-- The UTC host resolves `Asia/Shanghai` to the constant offset of eight
hours. -/
theorem resolveZone_shanghai :
    resolveZone hostUTC (.str "Asia/Shanghai") = .ok (fun _ => 8 * 3600000) := by
  simp [resolveZone, hostUTC, sampleZone, sampleZones]

/-- C6 (amended) applied to a process in UTC rendering in `Asia/Shanghai` at
2023-01-01T12:00Z with n = 1: the offsets of the two zones differ by eight hours
at both instants, and the reported dates are 2023/01/01 and 2023/01/02. -/
theorem C6_calendar_days_witness :
    (((JsVal.str "Asia/Shanghai").truthy = false
        ∧ (fun _ => 8 * 3600000) = hostUTC.localOffset)
      ∨ ((JsVal.str "Asia/Shanghai").truthy = true
          ∧ resolveZone hostUTC (.str "Asia/Shanghai") = .ok (fun _ => 8 * 3600000)))
    ∧ (-maxTime ≤ hostUTC.UTC (shiftedLocal hostUTC 1672574400000 1)
      ∧ hostUTC.UTC (shiftedLocal hostUTC 1672574400000 1) ≤ maxTime)
    ∧ hostUTC.LocalTime (hostUTC.UTC (shiftedLocal hostUTC 1672574400000 1))
        = shiftedLocal hostUTC 1672574400000 1
    ∧ ((8 * 3600000 : Int) - hostUTC.localOffset (hostUTC.UTC (shiftedLocal hostUTC 1672574400000 1))
        = 8 * 3600000 - hostUTC.localOffset 1672574400000)
    ∧ (∃ c r, getCurrentTime hostUTC 1672574400000 (.str "Asia/Shanghai") = .ok c
        ∧ getRelativeDate hostUTC 1672574400000 1 (.str "Asia/Shanghai") = .ok r
        ∧ c.date = (if (JsVal.str "Asia/Shanghai").truthy then fmtDateZh2 else fmtDateZh)
            (civilOfDay (Day (1672574400000 + 8 * 3600000)))
        ∧ r.date = (if (JsVal.str "Asia/Shanghai").truthy then fmtDateZh2 else fmtDateZh)
            (civilOfDay (Day (1672574400000 + 8 * 3600000) + 1)))
    ∧ fmtDateZh2 (civilOfDay (Day (1672574400000 + 8 * 3600000))) = "2023/01/01"
    ∧ fmtDateZh2 (civilOfDay (Day (1672574400000 + 8 * 3600000) + 1)) = "2023/01/02" :=
  ⟨Or.inr ⟨by decide, resolveZone_shanghai⟩, by decide, by decide, by decide,
    C6_calendar_days hostUTC 1672574400000 1 (.str "Asia/Shanghai") (fun _ => 8 * 3600000)
      (Or.inr ⟨by decide, resolveZone_shanghai⟩) (by decide) (by decide) (by decide),
    by decide, by decide⟩

/-! ## getWeekday -/

/-- C7 (code at the failing input): `2023-01-01` was a Sunday, and a process in
Shanghai reports `星期日`; a process in New York reports `星期六` for the same
input, together with the local date 2022/12/31 and the ISO date 2023-01-01. -/
theorem C7_weekday_follows_process_zone :
    getWeekday hostNewYork "2023-01-01" = .ok "2022/12/31" "星期六" "2023-01-01"
    ∧ getWeekday hostShanghai "2023-01-01" = .ok "2023/1/1" "星期日" "2023-01-01"
    ∧ WEEKDAY_CN.getD (WeekDayOfDay (MakeDay 2023 0 1)).toNat "" = "星期日" := by
  decide

/-- C8 (code at the failing input): the 30th of February 2023 is accepted and
reported as Thursday 2 March 2023; `2023-13-45` is rejected. -/
theorem C8_february_30_is_accepted :
    getWeekday hostShanghai "2023-02-30" = .ok "2023/3/2" "星期四" "2023-03-02"
    ∧ getWeekday hostShanghai "2023-13-45" = .error "无效的日期格式" := by
  decide

/-- Replacing the first occurrence of `c`, which does not occur in `xs`. -/
theorem replaceFirst_append (c : Char) (rep xs ys : List Char) (hx : c ∉ xs) :
    replaceFirst c rep (xs ++ c :: ys) = xs ++ (rep ++ ys) := by
  induction xs with
  | nil => simp [replaceFirst]
  | cons x xs ih =>
    have hne : x ≠ c := fun e => hx (by simp [e])
    have hx' : c ∉ xs := fun e => hx (List.mem_cons_of_mem _ e)
    simp [replaceFirst, hne, ih hx']

/-- A digit is none of the separators the normalisation looks for. -/
theorem digit_not_separator (c : Char) (hc : isDigit c = true) :
    c ≠ '年' ∧ c ≠ '月' ∧ c ≠ '日' ∧ c ≠ '/' ∧ c ≠ '-' := by
  refine ⟨?_, ?_, ?_, ?_, ?_⟩ <;> · rintro rfl; revert hc; decide

/-- A separator does not occur in a run of digits. -/
theorem not_mem_digits (s : List Char) (hs : ∀ c ∈ s, isDigit c = true) :
    '年' ∉ s ∧ '月' ∉ s ∧ '日' ∉ s ∧ '/' ∉ s := by
  refine ⟨?_, ?_, ?_, ?_⟩ <;>
  · intro hmem
    have hdig := hs _ hmem
    revert hdig
    decide

/-- The slash replacement leaves a run of digits unchanged. -/
theorem replaceSlashes_digits (s : List Char) (hs : ∀ c ∈ s, isDigit c = true) :
    replaceSlashes s = s := by
  unfold replaceSlashes
  conv_rhs => rw [← List.map_id s]
  apply List.map_congr_left
  intro c hc
  have := (digit_not_separator c (hs c hc)).2.2.2.1
  simp [this]

/-- The hyphenated form is left as it is. -/
theorem normalizeDate_hyphen (y m d : List Char) (hy : ∀ c ∈ y, isDigit c = true)
    (hm : ∀ c ∈ m, isDigit c = true) (hd : ∀ c ∈ d, isDigit c = true) :
    normalizeDate (y ++ '-' :: (m ++ '-' :: d)) = y ++ '-' :: (m ++ '-' :: d) := by
  obtain ⟨y1, _, _, y4⟩ := not_mem_digits y hy
  obtain ⟨m1, _, _, m4⟩ := not_mem_digits m hm
  obtain ⟨d1, _, _, d4⟩ := not_mem_digits d hd
  have h1 : (y ++ '-' :: (m ++ '-' :: d)).contains '年' = false := by
    simp [y1, m1, d1]
  have h2 : (y ++ '-' :: (m ++ '-' :: d)).contains '/' = false := by
    simp [y4, m4, d4]
  simp only [normalizeDate, h1, h2, Bool.false_eq_true, if_false]

/-- The slash form becomes the hyphenated form. -/
theorem normalizeDate_slash (y m d : List Char) (hy : ∀ c ∈ y, isDigit c = true)
    (hm : ∀ c ∈ m, isDigit c = true) (hd : ∀ c ∈ d, isDigit c = true) :
    normalizeDate (y ++ '/' :: (m ++ '/' :: d)) = y ++ '-' :: (m ++ '-' :: d) := by
  obtain ⟨y1, _, _, _⟩ := not_mem_digits y hy
  obtain ⟨m1, _, _, _⟩ := not_mem_digits m hm
  obtain ⟨d1, _, _, _⟩ := not_mem_digits d hd
  have h1 : (y ++ '/' :: (m ++ '/' :: d)).contains '年' = false := by
    simp [y1, m1, d1]
  have h2 : (y ++ '/' :: (m ++ '/' :: d)).contains '/' = true := by
    simp
  simp only [normalizeDate, h1, h2, Bool.false_eq_true, if_false, if_true]
  have e : replaceSlashes (y ++ '/' :: (m ++ '/' :: d))
      = replaceSlashes y ++ '-' :: (replaceSlashes m ++ '-' :: replaceSlashes d) := by
    simp [replaceSlashes]
  rw [e, replaceSlashes_digits y hy, replaceSlashes_digits m hm, replaceSlashes_digits d hd]

/-- The form with unit words becomes the hyphenated form. -/
theorem normalizeDate_units (y m d : List Char) (hy : ∀ c ∈ y, isDigit c = true)
    (hm : ∀ c ∈ m, isDigit c = true) (hd : ∀ c ∈ d, isDigit c = true) :
    normalizeDate (y ++ '年' :: (m ++ '月' :: (d ++ ['日']))) = y ++ '-' :: (m ++ '-' :: d) := by
  obtain ⟨y1, y2, y3, y4⟩ := not_mem_digits y hy
  obtain ⟨m1, m2, m3, m4⟩ := not_mem_digits m hm
  obtain ⟨d1, d2, d3, d4⟩ := not_mem_digits d hd
  have h1 : (y ++ '年' :: (m ++ '月' :: (d ++ ['日']))).contains '年' = true := by simp
  have s1 : replaceFirst '年' ['-'] (y ++ '年' :: (m ++ '月' :: (d ++ ['日'])))
      = (y ++ '-' :: m) ++ '月' :: (d ++ ['日']) := by
    rw [replaceFirst_append _ _ _ _ y1]; simp
  have n2 : '月' ∉ y ++ '-' :: m := by simp [y2, m2]
  have s2 : replaceFirst '月' ['-'] ((y ++ '-' :: m) ++ '月' :: (d ++ ['日']))
      = (y ++ '-' :: (m ++ '-' :: d)) ++ '日' :: [] := by
    rw [replaceFirst_append _ _ _ _ n2]; simp
  have n3 : '日' ∉ y ++ '-' :: (m ++ '-' :: d) := by simp [y3, m3, d3]
  have s3 : replaceFirst '日' [] ((y ++ '-' :: (m ++ '-' :: d)) ++ '日' :: [])
      = y ++ '-' :: (m ++ '-' :: d) := by
    rw [replaceFirst_append _ _ _ _ n3]; simp
  have h2 : (y ++ '-' :: (m ++ '-' :: d)).contains '/' = false := by
    simp [y4, m4, d4]
  simp only [normalizeDate, h1, if_true, s1, s2, s3, h2, Bool.false_eq_true, if_false]

/-- C9: for all digit strings y, m, d the three forms `y年m月d日`, `y/m/d` and
`y-m-d` are normalised to the same text `y-m-d` before the Date is built, and
`getWeekday` returns the same result for the three. -/
theorem C9_three_forms_agree (h : Host) (y m d : String)
    (hy : ∀ c ∈ y.toList, isDigit c = true) (hm : ∀ c ∈ m.toList, isDigit c = true)
    (hd : ∀ c ∈ d.toList, isDigit c = true) :
    normalizeDate (y ++ "年" ++ m ++ "月" ++ d ++ "日").toList
        = (y ++ "-" ++ m ++ "-" ++ d).toList
    ∧ normalizeDate (y ++ "/" ++ m ++ "/" ++ d).toList = (y ++ "-" ++ m ++ "-" ++ d).toList
    ∧ normalizeDate (y ++ "-" ++ m ++ "-" ++ d).toList = (y ++ "-" ++ m ++ "-" ++ d).toList
    ∧ getWeekday h (y ++ "年" ++ m ++ "月" ++ d ++ "日")
        = getWeekday h (y ++ "-" ++ m ++ "-" ++ d)
    ∧ getWeekday h (y ++ "/" ++ m ++ "/" ++ d) = getWeekday h (y ++ "-" ++ m ++ "-" ++ d) := by
  have e0 : (y ++ "-" ++ m ++ "-" ++ d).toList
      = y.toList ++ '-' :: (m.toList ++ '-' :: d.toList) := by
    simp [String.toList]
  have e1 : (y ++ "年" ++ m ++ "月" ++ d ++ "日").toList
      = y.toList ++ '年' :: (m.toList ++ '月' :: (d.toList ++ ['日'])) := by
    simp [String.toList]
  have e2 : (y ++ "/" ++ m ++ "/" ++ d).toList
      = y.toList ++ '/' :: (m.toList ++ '/' :: d.toList) := by
    simp [String.toList]
  have n1 := normalizeDate_units y.toList m.toList d.toList hy hm hd
  have n2 := normalizeDate_slash y.toList m.toList d.toList hy hm hd
  have n3 := normalizeDate_hyphen y.toList m.toList d.toList hy hm hd
  rw [← e1, ← e0] at n1
  rw [← e2, ← e0] at n2
  rw [← e0] at n3
  refine ⟨n1, n2, n3, ?_, ?_⟩
  · unfold getWeekday
    rw [n1, n3]
  · unfold getWeekday
    rw [n2, n3]

/-- C9 applied to y = 2023, m = 1, d = 1 on the Shanghai host. -/
theorem C9_three_forms_agree_witness :
    (∀ c ∈ "2023".toList, isDigit c = true) ∧ (∀ c ∈ "1".toList, isDigit c = true)
    ∧ normalizeDate ("2023" ++ "年" ++ "1" ++ "月" ++ "1" ++ "日").toList
        = ("2023" ++ "-" ++ "1" ++ "-" ++ "1").toList
    ∧ normalizeDate ("2023" ++ "/" ++ "1" ++ "/" ++ "1").toList
        = ("2023" ++ "-" ++ "1" ++ "-" ++ "1").toList
    ∧ normalizeDate ("2023" ++ "-" ++ "1" ++ "-" ++ "1").toList
        = ("2023" ++ "-" ++ "1" ++ "-" ++ "1").toList
    ∧ getWeekday hostShanghai ("2023" ++ "年" ++ "1" ++ "月" ++ "1" ++ "日")
        = getWeekday hostShanghai ("2023" ++ "-" ++ "1" ++ "-" ++ "1")
    ∧ getWeekday hostShanghai ("2023" ++ "/" ++ "1" ++ "/" ++ "1")
        = getWeekday hostShanghai ("2023" ++ "-" ++ "1" ++ "-" ++ "1") :=
  ⟨by decide, by decide,
    C9_three_forms_agree hostShanghai "2023" "1" "1" (by decide) (by decide) (by decide)⟩

/-! ## parseTimeQuery -/

/-- C10 (code at the failing input): the query `200000000天后` is classified as
a relative-day query with 200000000 days, and the call raises a RangeError
instead of returning a result; so does a query with a 23-digit day count. A
query no rule matches is returned as `unknown` with the text unchanged. -/
theorem C10_large_day_count_raises :
    firstMatch relativeDayAt "200000000天后".toList
      = some ("200000000天后".toList, some "200000000".toList)
    ∧ parseTimeQuery hostShanghai 1672574400000 "200000000天后"
      = .error (.rangeError "Invalid time value")
    ∧ parseTimeQuery hostShanghai 1672574400000 "99999999999999999999999天后"
      = .error (.rangeError "Invalid time value")
    ∧ parseTimeQuery hostShanghai 1672574400000 "你好" = .ok (.unknown "你好") := by
  decide

/-! ## The classifier -/

/-- C11 (code at the failing input): `芝加哥` is a key of the registry and is
missing from the city alternation, so `芝加哥时间` is classified as `unknown` on
every host and at every instant; every city of the alternation is a key of the
registry, and for each of them `c时间` is classified as `city_time` with city
`c` (here on the Shanghai host). -/
theorem C11_chicago_is_not_recognised :
    "芝加哥" ∈ registeredCities ∧ "芝加哥" ∉ CITY_ALTERNATION
    ∧ parseTimeQuery hostShanghai 1672574400000 "芝加哥时间" = .ok (.unknown "芝加哥时间")
    ∧ parseTimeQuery hostShanghai 1672574400000 "芝加哥和北京的时差"
      = .ok (.unknown "芝加哥和北京的时差")
    ∧ (∀ c ∈ CITY_ALTERNATION, c ∈ registeredCities)
    ∧ (∀ c ∈ registeredCities, c ≠ "芝加哥" → c ∈ CITY_ALTERNATION) := by
  decide

/-- C13 (code at the failing input): the test query `三天后是几月几号？` matches no
rule, `三` being no digit, and is classified as `unknown`; with the digit 3 the
query is a relative-day query with 3 days. -/
theorem C13_chinese_numeral_is_unknown :
    firstMatch relativeDayAt "三天后是几月几号？".toList = none
    ∧ parseTimeQuery hostShanghai 1672574400000 "三天后是几月几号？"
      = .ok (.unknown "三天后是几月几号？")
    ∧ (parseTimeQuery hostShanghai 1672574400000 "3天后是几月几号？").map QueryResult.type
      = .ok "relative_date" := by
  decide

/-- A query no rule matches is returned as `unknown`, on every host and at
every instant. -/
theorem parseTimeQuery_unknown (h : Host) (now : Int) (query : String)
    (h1 : (firstMatch currentTimeAt query.toList).isSome = false)
    (h2 : firstMatch cityTimeAt query.toList = none)
    (h3 : firstMatch timeDifferenceAt query.toList = none)
    (h4 : firstMatch relativeDayAt query.toList = none)
    (h5 : firstMatch dateWeekdayAt query.toList = none) :
    parseTimeQuery h now query = .ok (.unknown query) := by
  unfold parseTimeQuery
  simp only [h1, h2, h3, h4, h5, Bool.false_eq_true, if_false]

/-- `芝加哥时间` is `unknown` on every host and at every instant. -/
theorem parseTimeQuery_chicago (h : Host) (now : Int) :
    parseTimeQuery h now "芝加哥时间" = .ok (.unknown "芝加哥时间") :=
  parseTimeQuery_unknown h now _ (by decide) (by decide) (by decide) (by decide) (by decide)

/-- C14 (counterexample): with a timezone the host does not know the call
raises a RangeError, and with the empty string it returns the snapshot of the
process zone, the one returned when no timezone is given. -/
theorem C14_raises_or_falls_back :
    getCurrentTime hostShanghai 1672574400000 (.str "Mars/Olympus")
      = .error (.rangeError "Invalid time zone specified: Mars/Olympus")
    ∧ getCurrentTime hostShanghai 1672574400000 (.str "")
      = getCurrentTime hostShanghai 1672574400000 .undefined
    ∧ getCurrentTime hostShanghai 1672574400000 (.str "")
      = .ok { time := "20:00:00", date := "2023/1/1", weekday := "星期日"
              timestamp := 1672574400000, iso := "2023-01-01T12:00:00.000Z" } := by
  decide

/-- C14 (amended): for a string the host's database rejects, `getCurrentTime`
raises a RangeError when the string is not empty, and returns the snapshot of
the process zone, as without argument, when it is empty. -/
theorem C14_invalid_timezone (h : Host) (now : Int) (tz : String)
    (hz : h.zone tz = none) :
    (tz ≠ "" → getCurrentTime h now (.str tz)
        = .error (.rangeError ("Invalid time zone specified: " ++ tz)))
    ∧ (tz = "" → getCurrentTime h now (.str tz) = getCurrentTime h now .undefined
        ∧ ∃ info, getCurrentTime h now (.str tz) = .ok info) := by
  constructor
  · intro hne
    have ht : (JsVal.str tz).truthy = true := by simp [JsVal.truthy, hne]
    simp only [getCurrentTime, ht, if_true, resolveZone, hz]
  · rintro rfl
    have ht : (JsVal.str "").truthy = false := by decide
    have hu : JsVal.undefined.truthy = false := rfl
    rw [getCurrentTime_local h now _ ht, getCurrentTime_local h now _ hu]
    exact ⟨rfl, _, rfl⟩

/-- C14 (amended) applied to `Mars/Olympus` on the Shanghai host. -/
theorem C14_invalid_timezone_witness :
    hostShanghai.zone "Mars/Olympus" = none
    ∧ ("Mars/Olympus" ≠ "" → getCurrentTime hostShanghai 1672574400000 (.str "Mars/Olympus")
        = .error (.rangeError ("Invalid time zone specified: " ++ "Mars/Olympus")))
    ∧ ("Mars/Olympus" = "" → getCurrentTime hostShanghai 1672574400000 (.str "Mars/Olympus")
          = getCurrentTime hostShanghai 1672574400000 .undefined
        ∧ ∃ info, getCurrentTime hostShanghai 1672574400000 (.str "Mars/Olympus") = .ok info) :=
  ⟨Option.isNone_iff_eq_none.mp (by decide),
    C14_invalid_timezone hostShanghai 1672574400000 "Mars/Olympus"
      (Option.isNone_iff_eq_none.mp (by decide))⟩

/-- C15 (code at the failing input): a process in New York at 2023-01-01T12:00Z.
`getRelativeDate(0)` reports 2023/1/1, a Sunday; `getWeekday` of that date
written `2023-01-01` or `2023/01/01` answers Saturday, and written `2023年1月1日`
it answers Sunday. -/
theorem C15_round_trip_breaks_west_of_Greenwich :
    getRelativeDate hostNewYork 1672574400000 0 .undefined
      = .ok { date := "2023/1/1", weekday := "星期日", relativeText := "今天"
              iso := "2023-01-01T12:00:00.000Z" }
    ∧ getWeekday hostNewYork "2023-01-01" = .ok "2022/12/31" "星期六" "2023-01-01"
    ∧ getWeekday hostNewYork "2023/01/01" = .ok "2022/12/31" "星期六" "2023-01-01"
    ∧ getWeekday hostNewYork "2023年1月1日" = .ok "2023/1/1" "星期日" "2023-01-01" := by
  decide

/-- C16 (code at the failing input): `2023/1/15日` is matched by the date
pattern and names a valid date, and the query is classified as `date_weekday`
with that date text, but its data is the error variant: the normalisation
leaves `日` in place when there is no `年`, and the engine rejects
`2023-1-15日`. The example `2023年1月1日是星期几？` gets the success variant. -/
theorem C16_mixed_form_is_rejected :
    parseTimeQuery hostShanghai 1672574400000 "2023/1/15日是星期几"
      = .ok (.date_weekday "2023/1/15日" (.error "无效的日期格式"))
    ∧ normalizeDate "2023/1/15日".toList = "2023-1-15日".toList
    ∧ parseTimeQuery hostShanghai 1672574400000 "2023-1月15日是星期几"
      = .ok (.date_weekday "2023-1月15日" (.error "无效的日期格式"))
    ∧ parseTimeQuery hostShanghai 1672574400000 "2023年1月1日是星期几？"
      = .ok (.date_weekday "2023年1月1日" (.ok "2023/1/1" "星期日" "2022-12-31")) := by
  decide

/-- C18 (code at the failing input): `北京几点了` and `北京的几点了` contain the
current-time phrase `几点了`, so the first rule takes them and the result is
`current_time` with the time of the process zone (here New York), not
`city_time`; `北京时间` and `北京的时间` are `city_time`. -/
theorem C18_city_clock_phrase_is_current_time :
    parseTimeQuery hostNewYork 1672574400000 "北京几点了"
      = (getCurrentTime hostNewYork 1672574400000 .undefined).map .current_time
    ∧ parseTimeQuery hostNewYork 1672574400000 "北京的几点了"
      = (getCurrentTime hostNewYork 1672574400000 .undefined).map .current_time
    ∧ (parseTimeQuery hostNewYork 1672574400000 "北京几点了").map QueryResult.type
      = .ok "current_time"
    ∧ parseTimeQuery hostNewYork 1672574400000 "北京时间"
      = (getCityTime hostNewYork 1672574400000 "北京").map (.city_time "北京")
    ∧ parseTimeQuery hostNewYork 1672574400000 "北京的时间"
      = (getCityTime hostNewYork 1672574400000 "北京").map (.city_time "北京") := by
  decide

/-- C20 (code at the failing input): in Shanghai the unpadded `2023-1-1` gives
the date 2023/1/1 and the weekday Sunday with the ISO date 2022-12-31; in New
York the padded `2023-01-01` gives the ISO date 2023-01-01 with the date
2022/12/31 and the weekday Saturday. -/
theorem C20_fields_disagree :
    getWeekday hostShanghai "2023-1-1" = .ok "2023/1/1" "星期日" "2022-12-31"
    ∧ getWeekday hostShanghai "2023年1月1日" = .ok "2023/1/1" "星期日" "2022-12-31"
    ∧ getWeekday hostNewYork "2023-01-01" = .ok "2022/12/31" "星期六" "2023-01-01"
    ∧ getWeekday hostShanghai "2023-01-01" = .ok "2023/1/1" "星期日" "2023-01-01" := by
  decide

/-! ## Decimal numerals -/

/-- A digit is one of the ten characters `0` to `9`. -/
theorem digit_cases (P : Char → Prop) (hP : ∀ n, n < 10 → P (Nat.digitChar n))
    (c : Char) (hc : isDigit c = true) : P c := by
  have h1 : 48 ≤ c.toNat ∧ c.toNat ≤ 57 := by
    simp only [isDigit, Bool.and_eq_true, decide_eq_true_eq] at hc
    obtain ⟨a, b⟩ := hc
    have a' : ('0' : Char).toNat ≤ c.toNat := a
    have b' : c.toNat ≤ ('9' : Char).toNat := b
    exact ⟨a', b'⟩
  have h2 : c = Nat.digitChar (c.toNat - 48) := by
    have : ∀ n, 48 ≤ n → n ≤ 57 → Char.ofNat n = Nat.digitChar (n - 48) := by decide
    rw [← this c.toNat h1.1 h1.2, Char.ofNat_toNat]
  rw [h2]
  exact hP _ (by omega)

/-- The ten digit characters are digits and carry their value. -/
theorem digitChar_spec : ∀ n, n < 10 →
    (isDigit (Nat.digitChar n) && decide ((Nat.digitChar n).toNat - 48 = n)) = true := by
  decide


/-- The digit loop only adds digits. -/
theorem toDigitsCore_digits (fuel : Nat) : ∀ (n : Nat) (ds : List Char),
    (∀ c ∈ ds, isDigit c = true) → ∀ c ∈ Nat.toDigitsCore 10 fuel n ds, isDigit c = true := by
  induction fuel with
  | zero => intro n ds hds; simpa [Nat.toDigitsCore] using hds
  | succ fuel ih =>
    intro n ds hds
    have hd : isDigit (Nat.digitChar (n % 10)) = true := by
      have := digitChar_spec (n % 10) (Nat.mod_lt _ (by decide))
      rw [Bool.and_eq_true] at this
      exact this.1
    have hds' : ∀ c ∈ Nat.digitChar (n % 10) :: ds, isDigit c = true := by
      intro c hc
      rcases List.mem_cons.mp hc with rfl | hc
      · exact hd
      · exact hds c hc
    unfold Nat.toDigitsCore
    simp only
    split
    · exact hds'
    · exact ih _ _ hds'

/-- The digit loop never shortens its accumulator. -/
theorem toDigitsCore_ne_nil (fuel : Nat) : ∀ (n : Nat) (ds : List Char),
    ds ≠ [] → Nat.toDigitsCore 10 fuel n ds ≠ [] := by
  induction fuel with
  | zero => intro n ds hds; simpa [Nat.toDigitsCore] using hds
  | succ fuel ih =>
    intro n ds _
    unfold Nat.toDigitsCore
    simp only
    split
    · exact List.cons_ne_nil _ _
    · exact ih _ _ (List.cons_ne_nil _ _)

/-- Reading back what the digit loop wrote in front of `ds`. -/
theorem parseInt_toDigitsCore (fuel : Nat) : ∀ (n : Nat) (ds : List Char), n < fuel →
    (Nat.toDigitsCore 10 fuel n ds).foldl (fun n c => n * 10 + (c.toNat - 48)) 0
      = ds.foldl (fun n c => n * 10 + (c.toNat - 48)) n := by
  induction fuel with
  | zero => intro n ds hn; omega
  | succ fuel ih =>
    intro n ds hn
    have hv : (Nat.digitChar (n % 10)).toNat - 48 = n % 10 := by
      have := digitChar_spec (n % 10) (Nat.mod_lt _ (by decide))
      rw [Bool.and_eq_true, decide_eq_true_eq] at this
      exact this.2
    unfold Nat.toDigitsCore
    simp only
    split
    · rename_i h0
      have : n % 10 = n := by omega
      simp only [List.foldl_cons, hv, Nat.zero_mul, Nat.zero_add]
      rw [this]
    · rename_i h0
      rw [ih (n / 10) _ (by omega)]
      simp only [List.foldl_cons, hv]
      have : n / 10 * 10 + n % 10 = n := by omega
      rw [this]

/-- A decimal numeral consists of digits. -/
theorem decimal_digits (n : Nat) : ∀ c ∈ decimal n, isDigit c = true :=
  toDigitsCore_digits _ _ _ (by simp)

/-- A decimal numeral is not empty. -/
theorem decimal_ne_nil (n : Nat) : decimal n ≠ [] := by
  unfold decimal Nat.toDigits Nat.toDigitsCore
  simp only
  split
  · exact List.cons_ne_nil _ _
  · exact toDigitsCore_ne_nil _ _ _ (List.cons_ne_nil _ _)

/-- `parseInt` reads a decimal numeral back. -/
theorem parseInt_decimal (n : Nat) : parseInt (decimal n) = n := by
  unfold parseInt decimal Nat.toDigits
  rw [parseInt_toDigitsCore _ _ _ (Nat.lt_succ_self n)]
  rfl


/-! ## Matching at a position whose first character starts no literal -/

/-- A literal does not start a text whose first character is another one. -/
theorem stripPrefix_of_noneStartsWith (ws : List String) (c : Char) (cs : List Char)
    (hw : noneStartsWith ws c = true) (w : String) (hmem : w ∈ ws) :
    stripPrefix w.toList (c :: cs) = none ∧ w.toList.isPrefixOf (c :: cs) = false := by
  have h1 := (List.all_eq_true.mp hw) w hmem
  cases hl : w.toList with
  | nil => rw [hl] at h1; cases h1
  | cons p ps =>
    rw [hl] at h1
    have hne : p ≠ c := by simpa using h1
    constructor
    · simp [stripPrefix, hne]
    · simp [List.isPrefixOf, hne]

/-- No literal of `ws` starts such a text. -/
theorem startsWithAny_of_noneStartsWith (ws : List String) (c : Char) (cs : List Char)
    (hw : noneStartsWith ws c = true) : startsWithAny ws (c :: cs) = false := by
  unfold startsWithAny
  rw [List.any_eq_false]
  intro w hmem
  rw [(stripPrefix_of_noneStartsWith ws c cs hw w hmem).2]
  simp

/-- The current-time test fails at such a position. -/
theorem currentTimeAt_inert (c : Char) (cs : List Char) (hc : inertChar c = true) :
    currentTimeAt (c :: cs) = none := by
  have h1 : noneStartsWith CURRENT_TIME_PHRASES c = true := by
    unfold inertChar at hc; rw [Bool.and_eq_true] at hc; exact hc.1
  unfold currentTimeAt
  rw [startsWithAny_of_noneStartsWith _ c cs h1]
  rfl

/-- The city-time expression fails at such a position. -/
theorem cityTimeAt_inert (c : Char) (cs : List Char) (hc : inertChar c = true) :
    cityTimeAt (c :: cs) = none := by
  have h2 : noneStartsWith CITY_ALTERNATION c = true := by
    unfold inertChar at hc; rw [Bool.and_eq_true] at hc; exact hc.2
  unfold cityTimeAt
  rw [List.findSome?_eq_none_iff]
  intro w hmem
  rw [(stripPrefix_of_noneStartsWith _ c cs h2 w hmem).1]

/-- The time-difference expression fails at such a position. -/
theorem timeDifferenceAt_inert (c : Char) (cs : List Char) (hc : inertChar c = true) :
    timeDifferenceAt (c :: cs) = none := by
  have h2 : noneStartsWith CITY_ALTERNATION c = true := by
    unfold inertChar at hc; rw [Bool.and_eq_true] at hc; exact hc.2
  unfold timeDifferenceAt
  rw [List.findSome?_eq_none_iff]
  intro w hmem
  rw [(stripPrefix_of_noneStartsWith _ c cs h2 w hmem).1]

/-- An expression that fails on the empty text and at every inert character
matches nowhere in a text of inert characters. -/
theorem firstMatch_inert {α : Type} (f : List Char → Option α) (hnil : f [] = none)
    (hf : ∀ c cs, inertChar c = true → f (c :: cs) = none) :
    ∀ s : List Char, (∀ c ∈ s, inertChar c = true) → firstMatch f s = none := by
  intro s
  induction s with
  | nil => intro _; simpa [firstMatch] using hnil
  | cons c cs ih =>
    intro hs
    have hc := hs c (List.mem_cons_self _ _)
    have hcs : ∀ x ∈ cs, inertChar x = true := fun x hx => hs x (List.mem_cons_of_mem _ hx)
    simp [firstMatch, hf c cs hc, ih hcs]

/-- A digit is inert, and starts no relative-day word. -/
theorem digit_inert (c : Char) (hc : isDigit c = true) :
    inertChar c = true ∧ noneStartsWith RELATIVE_WORDS c = true := by
  apply digit_cases (fun c => inertChar c = true ∧ noneStartsWith RELATIVE_WORDS c = true) _ c hc
  have : ∀ n, n < 10 → (inertChar (Nat.digitChar n)
      && noneStartsWith RELATIVE_WORDS (Nat.digitChar n)) = true := by decide
  intro n hn
  have := this n hn
  rwa [Bool.and_eq_true] at this


/-! ## Numeric relative-day phrases -/

/-- A digit is none of `天`, `后`, `前`. -/
theorem digit_ne_day (c : Char) (hc : isDigit c = true) : c ≠ '天' ∧ c ≠ '后' ∧ c ≠ '前' := by
  apply digit_cases (fun c => c ≠ '天' ∧ c ≠ '后' ∧ c ≠ '前') _ c hc
  decide

/-- A text includes what it ends with. -/
theorem includes_append_self (pat xs : List Char) : includes pat (xs ++ pat) = true := by
  induction xs with
  | nil =>
    cases pat with
    | nil => rfl
    | cons c cs =>
      have : (c :: cs).isPrefixOf (c :: cs) = true :=
        List.isPrefixOf_iff_prefix.mpr (List.prefix_refl _)
      simp [includes, this]
  | cons x xs ih => simp [includes, ih]

/-- A run of digits followed by `天前` does not include `天后`. -/
theorem includes_later_in_earlier (ds : List Char) (hds : ∀ c ∈ ds, isDigit c = true) :
    includes ['天', '后'] (ds ++ ['天', '前']) = false := by
  induction ds with
  | nil => decide
  | cons d ds ih =>
    have hd := (digit_ne_day d (hds d (List.mem_cons_self _ _))).1
    have hne : ('天' == d) = false := by
      simp only [beq_eq_false_iff_ne, ne_eq]
      exact fun e => hd e.symm
    have ih' := ih (fun c hc => hds c (List.mem_cons_of_mem _ hc))
    simp only [List.cons_append, includes, List.isPrefixOf, hne, Bool.false_and, Bool.false_or]
    exact ih'

/-- The relative-day expression matches a numeric phrase at its start, with
the digits as second capture. -/
theorem relativeDayAt_numeric (ds : List Char) (x : Char)
    (hds : ∀ c ∈ ds, isDigit c = true) (hne : ds ≠ []) (hx : x = '后' ∨ x = '前') :
    firstMatch relativeDayAt (ds ++ ['天', x]) = some (ds ++ ['天', x], some ds) := by
  have htw : (ds ++ ['天', x]).takeWhile isDigit = ds := by
    rw [List.takeWhile_append_of_pos hds]
    have : isDigit '天' = false := by decide
    simp [List.takeWhile, this]
  have hdw : (ds ++ ['天', x]).dropWhile isDigit = ['天', x] := by
    rw [List.dropWhile_append_of_pos hds]
    have : isDigit '天' = false := by decide
    simp [List.dropWhile, this]
  have hxb : (x == '后' || x == '前') = true := by
    rcases hx with rfl | rfl <;> decide
  have hemp : ds.isEmpty = false := by
    cases ds with
    | nil => exact absurd rfl hne
    | cons _ _ => rfl
  have hat : relativeDayAt (ds ++ ['天', x]) = some (ds ++ ['天', x], some ds) := by
    cases hds' : ds with
    | nil => exact absurd hds' hne
    | cons d ds' =>
      have hd := (digit_inert d (hds d (by rw [hds']; exact List.mem_cons_self _ _))).2
      have hfind : RELATIVE_WORDS.find? (fun w => w.toList.isPrefixOf (d :: ds' ++ ['天', x]))
          = none := by
        rw [List.find?_eq_none]
        intro w hmem
        rw [List.cons_append,
          (stripPrefix_of_noneStartsWith _ d (ds' ++ ['天', x]) hd w hmem).2]
        simp
      rw [hds'] at htw hdw hemp
      unfold relativeDayAt
      simp only [hfind, htw, hdw, hemp, hxb, Bool.not_false, Bool.and_self, if_true]
  cases hds' : ds ++ ['天', x] with
  | nil => simp at hds'
  | cons c cs =>
    rw [hds'] at hat
    simp [firstMatch, hat]


/-- A text that starts with a digit is none of the relative-day words. -/
theorem digit_head_ne_word (d : Char) (rest : List Char) (hd : isDigit d = true)
    (w : String) (hw : w ∈ RELATIVE_WORDS) : d :: rest ≠ w.toList := by
  intro e
  have h := (stripPrefix_of_noneStartsWith _ d rest (digit_inert d hd).2 w hw).2
  rw [← e] at h
  have : (d :: rest).isPrefixOf (d :: rest) = true :=
    List.isPrefixOf_iff_prefix.mpr (List.prefix_refl _)
  rw [this] at h
  cases h

/-- The day count of a numeric phrase: the number read for `天后`, its
opposite for `天前`. -/
theorem relativeDays_numeric (ds : List Char) (hds : ∀ c ∈ ds, isDigit c = true)
    (hne : ds ≠ []) :
    relativeDays (ds ++ ['天', '后']) (some ds) = (parseInt ds : Int)
    ∧ relativeDays (ds ++ ['天', '前']) (some ds) = -(parseInt ds : Int) := by
  cases hds' : ds with
  | nil => exact absurd hds' hne
  | cons d ds' =>
    have hd : isDigit d = true := hds d (by rw [hds']; exact List.mem_cons_self _ _)
    have hw : ∀ (tail : List Char) (w : String), w ∈ RELATIVE_WORDS →
        d :: ds' ++ tail ≠ w.toList :=
      fun tail w hmem => digit_head_ne_word d (ds' ++ tail) hd w hmem
    have i1 : includes "天后".toList (d :: ds' ++ ['天', '后']) = true :=
      includes_append_self ['天', '后'] (d :: ds')
    have i2 : includes "天后".toList (d :: ds' ++ ['天', '前']) = false :=
      includes_later_in_earlier (d :: ds') (by rw [← hds']; exact hds)
    have i3 : includes "天前".toList (d :: ds' ++ ['天', '前']) = true :=
      includes_append_self ['天', '前'] (d :: ds')
    constructor
    · unfold relativeDays
      rw [if_neg (hw _ "今天" (by decide)), if_neg (hw _ "明天" (by decide)),
        if_neg (hw _ "后天" (by decide)), if_neg (hw _ "大后天" (by decide)),
        if_neg (hw _ "昨天" (by decide)), if_neg (hw _ "前天" (by decide)),
        if_neg (hw _ "大前天" (by decide)), i1]
      rfl
    · unfold relativeDays
      rw [if_neg (hw _ "今天" (by decide)), if_neg (hw _ "明天" (by decide)),
        if_neg (hw _ "后天" (by decide)), if_neg (hw _ "大后天" (by decide)),
        if_neg (hw _ "昨天" (by decide)), if_neg (hw _ "前天" (by decide)),
        if_neg (hw _ "大前天" (by decide)), i2, i3]
      rfl

/-- A query the first three rules do not match and the relative-day expression
matches is answered by `getRelativeDate` on the day count of the captures. -/
theorem parseTimeQuery_relative (h : Host) (now : Int) (query : String)
    (g1 : List Char) (g2 : Option (List Char))
    (h1 : (firstMatch currentTimeAt query.toList).isSome = false)
    (h2 : firstMatch cityTimeAt query.toList = none)
    (h3 : firstMatch timeDifferenceAt query.toList = none)
    (h4 : firstMatch relativeDayAt query.toList = some (g1, g2)) :
    parseTimeQuery h now query
      = (getRelativeDate h now (relativeDays g1 g2) .undefined).map
          (.relative_date (relativeDays g1 g2)) := by
  unfold parseTimeQuery
  simp only [h1, h2, h3, h4, Bool.false_eq_true, if_false]

/-- The first three rules match nowhere in a numeric phrase. -/
theorem numeric_phrase_inert (ds : List Char) (x : Char)
    (hds : ∀ c ∈ ds, isDigit c = true) (hx : x = '后' ∨ x = '前') :
    ∀ c ∈ ds ++ ['天', x], inertChar c = true := by
  intro c hc
  rcases List.mem_append.mp hc with hc | hc
  · exact (digit_inert c (hds c hc)).1
  · have h1 : inertChar '天' = true := by decide
    have h2 : inertChar '后' = true := by decide
    have h3 : inertChar '前' = true := by decide
    simp only [List.mem_cons, List.mem_singleton, List.not_mem_nil, or_false] at hc
    rcases hc with rfl | rfl
    · exact h1
    · rcases hx with rfl | rfl
      · exact h2
      · exact h3

/-- A numeric phrase `N天后` or `N天前`, `N` a non-empty run of digits, is
answered by `getRelativeDate` on the number read, respectively its opposite. -/
theorem parseTimeQuery_numeric (h : Host) (now : Int) (ds : List Char)
    (hds : ∀ c ∈ ds, isDigit c = true) (hne : ds ≠ []) :
    parseTimeQuery h now (String.mk (ds ++ ['天', '后']))
        = (getRelativeDate h now (parseInt ds) .undefined).map (.relative_date (parseInt ds))
    ∧ parseTimeQuery h now (String.mk (ds ++ ['天', '前']))
        = (getRelativeDate h now (-(parseInt ds : Int)) .undefined).map
            (.relative_date (-(parseInt ds : Int))) := by
  obtain ⟨r1, r2⟩ := relativeDays_numeric ds hds hne
  constructor
  · have hin := numeric_phrase_inert ds '后' hds (Or.inl rfl)
    have e := parseTimeQuery_relative h now (String.mk (ds ++ ['天', '后'])) _ _
      (congrArg Option.isSome
        (firstMatch_inert currentTimeAt (by decide) currentTimeAt_inert _ hin))
      (firstMatch_inert cityTimeAt (by decide) cityTimeAt_inert _ hin)
      (firstMatch_inert timeDifferenceAt (by decide) timeDifferenceAt_inert _ hin)
      (relativeDayAt_numeric ds '后' hds hne (Or.inl rfl))
    rw [r1] at e
    exact e
  · have hin := numeric_phrase_inert ds '前' hds (Or.inr rfl)
    have e := parseTimeQuery_relative h now (String.mk (ds ++ ['天', '前'])) _ _
      (congrArg Option.isSome
        (firstMatch_inert currentTimeAt (by decide) currentTimeAt_inert _ hin))
      (firstMatch_inert cityTimeAt (by decide) cityTimeAt_inert _ hin)
      (firstMatch_inert timeDifferenceAt (by decide) timeDifferenceAt_inert _ hin)
      (relativeDayAt_numeric ds '前' hds hne (Or.inr rfl))
    rw [r2] at e
    exact e

/-- Each of the seven relative-day words, as a whole query, is answered by
`getRelativeDate` on its day count, on every host and at every instant. -/
theorem parseTimeQuery_words (h : Host) (now : Int) :
    parseTimeQuery h now "今天" = (getRelativeDate h now 0 .undefined).map (.relative_date 0)
    ∧ parseTimeQuery h now "明天" = (getRelativeDate h now 1 .undefined).map (.relative_date 1)
    ∧ parseTimeQuery h now "后天" = (getRelativeDate h now 2 .undefined).map (.relative_date 2)
    ∧ parseTimeQuery h now "大后天" = (getRelativeDate h now 3 .undefined).map (.relative_date 3)
    ∧ parseTimeQuery h now "昨天"
        = (getRelativeDate h now (-1) .undefined).map (.relative_date (-1))
    ∧ parseTimeQuery h now "前天"
        = (getRelativeDate h now (-2) .undefined).map (.relative_date (-2))
    ∧ parseTimeQuery h now "大前天"
        = (getRelativeDate h now (-3) .undefined).map (.relative_date (-3)) := by
  have w1 := parseTimeQuery_relative h now "今天" "今天".toList none
    (by decide) (by decide) (by decide) (by decide)
  have w2 := parseTimeQuery_relative h now "明天" "明天".toList none
    (by decide) (by decide) (by decide) (by decide)
  have w3 := parseTimeQuery_relative h now "后天" "后天".toList none
    (by decide) (by decide) (by decide) (by decide)
  have w4 := parseTimeQuery_relative h now "大后天" "大后天".toList none
    (by decide) (by decide) (by decide) (by decide)
  have w5 := parseTimeQuery_relative h now "昨天" "昨天".toList none
    (by decide) (by decide) (by decide) (by decide)
  have w6 := parseTimeQuery_relative h now "前天" "前天".toList none
    (by decide) (by decide) (by decide) (by decide)
  have w7 := parseTimeQuery_relative h now "大前天" "大前天".toList none
    (by decide) (by decide) (by decide) (by decide)
  rw [show relativeDays "今天".toList none = 0 by decide] at w1
  rw [show relativeDays "明天".toList none = 1 by decide] at w2
  rw [show relativeDays "后天".toList none = 2 by decide] at w3
  rw [show relativeDays "大后天".toList none = 3 by decide] at w4
  rw [show relativeDays "昨天".toList none = -1 by decide] at w5
  rw [show relativeDays "前天".toList none = -2 by decide] at w6
  rw [show relativeDays "大前天".toList none = -3 by decide] at w7
  exact ⟨w1, w2, w3, w4, w5, w6, w7⟩

/-- For every natural number `N`, the queries `N天后` and `N天前`, `N` written as a
decimal numeral, are answered by `getRelativeDate` on `N` and on `-N`. -/
theorem parseTimeQuery_decimal (h : Host) (now : Int) (N : Nat) :
    parseTimeQuery h now (String.mk (decimal N) ++ "天后")
        = (getRelativeDate h now N .undefined).map (.relative_date N)
    ∧ parseTimeQuery h now (String.mk (decimal N) ++ "天前")
        = (getRelativeDate h now (-(N : Int)) .undefined).map (.relative_date (-(N : Int))) := by
  have e := parseTimeQuery_numeric h now (decimal N) (decimal_digits N) (decimal_ne_nil N)
  rw [parseInt_decimal] at e
  exact e

/-- The label of a day count, as a whole query, is answered by
`getRelativeDate` on that day count: the classifier reads the labels back. -/
theorem parseTimeQuery_relativeTextOf (h : Host) (now n : Int) :
    parseTimeQuery h now (relativeTextOf n)
      = (getRelativeDate h now n .undefined).map (.relative_date n) := by
  obtain ⟨t0, t1, t2, t3, t4, t5, t6⟩ := relativeTextOf_table n
  obtain ⟨w1, w2, w3, _, w5, w6, _⟩ := parseTimeQuery_words h now
  by_cases c0 : n = 0
  · rw [t0 c0, c0]; exact w1
  by_cases c1 : n = 1
  · rw [t1 c1, c1]; exact w2
  by_cases c2 : n = 2
  · rw [t2 c2, c2]; exact w3
  by_cases c3 : n = -1
  · rw [t3 c3, c3]; exact w5
  by_cases c4 : n = -2
  · rw [t4 c4, c4]; exact w6
  by_cases c5 : 2 < n
  · rw [t5 c5]
    have e := (parseTimeQuery_decimal h now n.toNat).1
    have hn : ((n.toNat : Nat) : Int) = n := by omega
    rw [hn] at e
    exact e
  · have c6 : n < -2 := by omega
    rw [t6 c6]
    have e := (parseTimeQuery_decimal h now n.natAbs).2
    have hn : -((n.natAbs : Nat) : Int) = n := by omega
    rw [hn] at e
    exact e

/-! ## The order of the rules -/

/-- An expression matches somewhere in a text exactly when it matches at the
start of one of its suffixes. -/
theorem firstMatch_isSome_iff {α : Type} (f : List Char → Option α) (s : List Char) :
    (firstMatch f s).isSome = true ↔ ∃ t, t <:+ s ∧ (f t).isSome = true := by
  induction s with
  | nil =>
    simp only [firstMatch, List.suffix_nil]
    constructor
    · intro h; exact ⟨[], rfl, h⟩
    · rintro ⟨t, rfl, h⟩; exact h
  | cons c cs ih =>
    simp only [firstMatch]
    constructor
    · intro h
      cases hf : f (c :: cs) with
      | some a => exact ⟨c :: cs, List.suffix_refl _, by rw [hf]; rfl⟩
      | none =>
        rw [hf] at h
        obtain ⟨t, ht, hm⟩ := ih.mp h
        exact ⟨t, List.suffix_cons_iff.mpr (Or.inr ht), hm⟩
    · rintro ⟨t, ht, hm⟩
      cases hf : f (c :: cs) with
      | some a => rfl
      | none =>
        rcases List.suffix_cons_iff.mp ht with rfl | ht
        · rw [hf] at hm; cases hm
        · exact ih.mpr ⟨t, ht, hm⟩

/-- A mapped outcome that is a result comes from a result. -/
theorem map_eq_ok {α β : Type} (f : α → β) (x : Except JsError α) (r : β)
    (hx : x.map f = .ok r) : ∃ a, x = .ok a ∧ r = f a := by
  cases x with
  | error e => cases hx
  | ok a => exact ⟨a, rfl, by cases hx; rfl⟩

/-- Whenever `parseTimeQuery` returns, the type of its result is that of the
lowest-numbered rule whose expression matches somewhere in the query, and it
is `unknown` exactly when no expression matches. -/
theorem parseTimeQuery_type (h : Host) (now : Int) (query : String) (r : QueryResult)
    (hr : parseTimeQuery h now query = .ok r) :
    r.type = lowestMatchingRule query.toList
    ∧ (r.type = "unknown" ↔ ∀ rule ∈ RULES, rule.2 query.toList = false) := by
  unfold parseTimeQuery at hr
  simp only [String.toList] at hr ⊢
  cases h1 : (firstMatch currentTimeAt query.data).isSome with
  | true =>
    rw [h1] at hr
    simp only [if_true] at hr
    obtain ⟨a, _, rfl⟩ := map_eq_ok _ _ _ hr
    simp [QueryResult.type, lowestMatchingRule, RULES, h1]
  | false =>
    rw [h1] at hr
    simp only [Bool.false_eq_true, if_false] at hr
    cases h2 : firstMatch cityTimeAt query.data with
    | some c =>
      rw [h2] at hr
      obtain ⟨a, _, rfl⟩ := map_eq_ok _ _ _ hr
      simp [QueryResult.type, lowestMatchingRule, RULES, h1, h2]
    | none =>
      rw [h2] at hr
      cases h3 : firstMatch timeDifferenceAt query.data with
      | some ab =>
        rw [h3] at hr
        obtain ⟨a, _, rfl⟩ := map_eq_ok _ _ _ hr
        simp [QueryResult.type, lowestMatchingRule, RULES, h1, h2, h3]
      | none =>
        rw [h3] at hr
        cases h4 : firstMatch relativeDayAt query.data with
        | some g =>
          rw [h4] at hr
          obtain ⟨a, _, rfl⟩ := map_eq_ok _ _ _ hr
          simp [QueryResult.type, lowestMatchingRule, RULES, h1, h2, h3, h4]
        | none =>
          rw [h4] at hr
          cases h5 : firstMatch dateWeekdayAt query.data with
          | some g =>
            rw [h5] at hr
            cases hr
            simp [QueryResult.type, lowestMatchingRule, RULES, h1, h2, h3, h4, h5]
          | none =>
            rw [h5] at hr
            cases hr
            simp [QueryResult.type, lowestMatchingRule, RULES, h1, h2, h3, h4, h5]

/-! ## Large day counts in the classifier -/

/-- C12 (code at the failing input): the queries `300000000天后` and
`300000000天前` raise a RangeError instead of returning a `relative_date`
result, as `getRelativeDate` does on these day counts; the word `大后天` is
answered with 3 days. -/
theorem C12_large_numeral_raises :
    parseTimeQuery hostShanghai 1672574400000 "300000000天后"
      = .error (.rangeError "Invalid time value")
    ∧ parseTimeQuery hostShanghai 1672574400000 "300000000天前"
      = .error (.rangeError "Invalid time value")
    ∧ getRelativeDate hostShanghai 1672574400000 300000000 .undefined
      = .error (.rangeError "Invalid time value")
    ∧ parseTimeQuery hostShanghai 1672574400000 "大后天"
      = .ok (.relative_date 3
          { date := "2023/1/4", weekday := "星期三", relativeText := "3天后"
            iso := "2023-01-04T12:00:00.000Z" }) := by
  decide

/-- C17 (code at the failing input): in `400000000天前` the lowest-numbered rule
whose expression matches is the relative-day rule, and the call raises a
RangeError, so there is no result and no type; a query that contains a
current-time phrase, a city, a relative-day word and a date is `current_time`. -/
theorem C17_matching_rule_without_result :
    lowestMatchingRule "400000000天前".toList = "relative_date"
    ∧ parseTimeQuery hostShanghai 1672574400000 "400000000天前"
      = .error (.rangeError "Invalid time value")
    ∧ (parseTimeQuery hostShanghai 1672574400000 "北京时间明天2023-01-01是星期几现在几点").map
        QueryResult.type = .ok "current_time" := by
  decide

/-- C19 (code at the failing input): for n = 500000000 `getRelativeDate` raises
a RangeError and returns no label; the label computed on line 195 would be
`500000000天后`, and `parseTimeQuery` raises on it as well. -/
theorem C19_label_of_large_offset :
    getRelativeDate hostShanghai 1672574400000 500000000 .undefined
      = .error (.rangeError "Invalid time value")
    ∧ relativeTextOf 500000000 = "500000000天后"
    ∧ parseTimeQuery hostShanghai 1672574400000 "500000000天后"
      = .error (.rangeError "Invalid time value") := by
  decide

/-! ## City phrases -/

/-- A query the first rule does not match and the city-time expression matches
is answered by `getCityTime` on the captured city. -/
theorem parseTimeQuery_city (h : Host) (now : Int) (query c : String)
    (h1 : (firstMatch currentTimeAt query.toList).isSome = false)
    (h2 : firstMatch cityTimeAt query.toList = some c) :
    parseTimeQuery h now query = (getCityTime h now c).map (.city_time c) := by
  unfold parseTimeQuery
  simp only [h1, h2, Bool.false_eq_true, if_false]

/-- For every city of the alternation, in `c时间` and `c的时间` the first rule
does not match and the city-time expression captures `c`. -/
theorem city_phrases_match : ∀ c ∈ CITY_ALTERNATION,
    (!(firstMatch currentTimeAt (c ++ "时间").toList).isSome
      && firstMatch cityTimeAt (c ++ "时间").toList == some c
      && !(firstMatch currentTimeAt (c ++ "的时间").toList).isSome
      && firstMatch cityTimeAt (c ++ "的时间").toList == some c) = true := by
  decide

/-- For every city `c` of the alternation, the queries `c时间` and `c的时间` are
classified as `city_time` with city `c` and the data of `getCityTime(c)`, on
every host and at every instant. -/
theorem parseTimeQuery_city_phrases (h : Host) (now : Int) (c : String)
    (hc : c ∈ CITY_ALTERNATION) :
    parseTimeQuery h now (c ++ "时间") = (getCityTime h now c).map (.city_time c)
    ∧ parseTimeQuery h now (c ++ "的时间") = (getCityTime h now c).map (.city_time c) := by
  have hm := city_phrases_match c hc
  simp only [Bool.and_eq_true, Bool.not_eq_true', beq_iff_eq] at hm
  obtain ⟨⟨⟨a1, a2⟩, a3⟩, a4⟩ := hm
  exact ⟨parseTimeQuery_city h now _ c a1 a2, parseTimeQuery_city h now _ c a3 a4⟩

end McpTime
